import Mathlib

/-!
Verification development for the project-manager agent repository
(Trello/Jira tools and workflows).  Each remote-facing routine of the
source is embedded as a pure Lean function over an explicit environment
(an oracle describing what each remote call would return), and the
claims of the specification are settled as theorems about these
embeddings.

Conventions used throughout:
* A remote call that the JavaScript source performs with `fetch` is fed
  from an oracle; `Except String α` models a call that either returns a
  typed value or throws with a message.
* The action traces (`TAction`, `JAction`) record the remote mutations a
  run performs, in order; console output (`console.warn`) is collected
  separately from warnings that are returned to the caller.
* JS timestamps are modeled at integer granularity; string lengths use
  `String.length`.
-/

/-! ### Resilient remote clients
`makeApiCall` embeds the retry helper of `trello-tool.ts` (lines 36-62);
`makeJiraRequest` embeds the retry helper of the Jira tool (lines
229-260).  The event oracle gives, for each attempt index, either an
HTTP response (status, optional parsed Retry-After header, body text) or
a network error. -/

/-- One observable outcome of a single `fetch` attempt. -/
inductive FetchEvent where
  | resp (status : Nat) (retryAfter : Option Nat) (body : String)
  | netErr (msg : String)

/-- JS `response.ok`: status in the 2xx range. -/
def respOk (status : Nat) : Bool :=
  decide (200 ≤ status) && decide (status < 300)

/-- Result of the Trello `makeApiCall` helper: a parsed JSON body, a
thrown error, or the implicit `undefined` return when the loop runs out
of attempts on consecutive 429 responses. -/
inductive TrelloResult where
  | ok (body : String)
  | thrown (msg : String)
  | undefv
deriving DecidableEq

/-- Error text built by `makeApiCall` for a non-ok response
(trello-tool.ts line 50). -/
def apiErrorMsg (status : Nat) (body : String) : String :=
  "API Error (" ++ toString status ++ "): " ++ body

/-- Loop body of `makeApiCall` (trello-tool.ts lines 37-61).  `i` is the
0-based loop index, the `Nat` argument is the number of attempts left.
On 429 it sleeps `2^i * 1000` ms and continues (also on the final
attempt, after which the loop exits returning `undefined`).  A non-ok
response raises inside the `try`, so it is caught like a network error:
rethrown only on the final attempt, otherwise slept on and retried. -/
def makeApiCallGo (ev : Nat → FetchEvent) (i : Nat) : Nat → TrelloResult × List Nat
  | 0 => (.undefv, [])
  | fuel + 1 =>
    match ev i with
    | .resp status _ body =>
      if status = 429 then
        let p := makeApiCallGo ev (i + 1) fuel
        (p.1, 2 ^ i * 1000 :: p.2)
      else if respOk status then (.ok body, [])
      else if fuel = 0 then (.thrown (apiErrorMsg status body), [])
      else
        let p := makeApiCallGo ev (i + 1) fuel
        (p.1, 2 ^ i * 1000 :: p.2)
    | .netErr msg =>
      if fuel = 0 then (.thrown msg, [])
      else
        let p := makeApiCallGo ev (i + 1) fuel
        (p.1, 2 ^ i * 1000 :: p.2)

/-- `makeApiCall(url, options, retries)` of trello-tool.ts.  Returns the
terminal result together with the list of sleeps (in ms) performed. -/
def makeApiCall (ev : Nat → FetchEvent) (retries : Nat) : TrelloResult × List Nat :=
  makeApiCallGo ev 0 retries

/-- A `Response` as returned (unexamined) by `makeJiraRequest`. -/
structure JiraResp where
  status : Nat
  retryAfter : Option Nat
  body : String
deriving DecidableEq

/-- Result of `makeJiraRequest`: either a returned `Response` (any
non-429 status, including 4xx/5xx) or a thrown error. -/
inductive JiraResult where
  | ok (r : JiraResp)
  | thrown (msg : String)
deriving DecidableEq

/-- Delay chosen on a 429 by `makeJiraRequest` (Jira tool line 242):
`Retry-After * 1000` when the header is present, else `2^attempt * 1000`
with `attempt` counted from 1. -/
def jiraRetryDelay : Option Nat → Nat → Nat
  | some ra, _ => ra * 1000
  | none, attempt => 2 ^ attempt * 1000

/-- Loop body of `makeJiraRequest` (Jira tool lines 232-259).  `attempt`
is the 1-based attempt counter; `lastError` tracks the most recent
caught error; after the loop the function throws `lastError` or the
generic "Request failed after retries" error. -/
def makeJiraRequestGo (ev : Nat → FetchEvent) (attempt : Nat) (lastError : Option String) :
    Nat → JiraResult × List Nat
  | 0 => (.thrown (lastError.getD "Request failed after retries"), [])
  | fuel + 1 =>
    match ev attempt with
    | .resp status ra body =>
      if status = 429 then
        let p := makeJiraRequestGo ev (attempt + 1) lastError fuel
        (p.1, jiraRetryDelay ra attempt :: p.2)
      else (.ok ⟨status, ra, body⟩, [])
    | .netErr msg =>
      if fuel = 0 then (.thrown msg, [])
      else
        let p := makeJiraRequestGo ev (attempt + 1) (some msg) fuel
        (p.1, 2 ^ attempt * 1000 :: p.2)

/-- `makeJiraRequest(url, options, maxRetries)` of the Jira tool. -/
def makeJiraRequest (ev : Nat → FetchEvent) (maxRetries : Nat) : JiraResult × List Nat :=
  makeJiraRequestGo ev 1 none maxRetries

/-- The backoff sequence the Trello client sleeps through when every
attempt is rate limited: `2^i * 1000` for `i` from the given start. -/
def trelloBackoffs : Nat → Nat → List Nat
  | _, 0 => []
  | i, fuel + 1 => 2 ^ i * 1000 :: trelloBackoffs (i + 1) fuel

/-- The sleep sequence of the Jira client when every attempt is rate
limited, honouring the per-attempt Retry-After header when present. -/
def jira429Sleeps (hdr : Nat → Option Nat) : Nat → Nat → List Nat
  | _, 0 => []
  | a, fuel + 1 => jiraRetryDelay (hdr a) a :: jira429Sleeps hdr (a + 1) fuel

/-! ### Generator-output normalization and structural validation
Embeds the parse block of `enhanceTasks` in trello-workflow.ts (lines
240-263 for the Trello step, 849-871 for the Jira step): trim, strip a
markdown code fence (the generic fence or the json-tagged fence), trim
again, `JSON.parse`, then check the required top-level fields.  The
platform JSON parser is an oracle `String → Option Jsonv`. -/

/-- Checks whether `pat` is a prefix of `l`. -/
def listStarts : List Char → List Char → Bool
  | [], _ => true
  | _ :: _, [] => false
  | p :: ps, c :: cs => p = c && listStarts ps cs

/-- Checks whether `pat` is a suffix of `l`. -/
def listEnds (pat l : List Char) : Bool :=
  listStarts pat.reverse l.reverse

/-- Drop leading whitespace (the `\s*` after the opening fence, and the
left half of `trim`). -/
def dropLeadWs (l : List Char) : List Char :=
  l.dropWhile Char.isWhitespace

/-- Drop trailing whitespace (the `\s*` before the closing fence, and
the right half of `trim`). -/
def dropTrailWs (l : List Char) : List Char :=
  (l.reverse.dropWhile Char.isWhitespace).reverse

/-- JS `String.prototype.trim`. -/
def trimChars (l : List Char) : List Char :=
  dropTrailWs (dropLeadWs l)

/-- Drop the last `n` characters. -/
def dropLastN (l : List Char) (n : Nat) : List Char :=
  l.take (l.length - n)

/-- The `.replace(/\s*` fence `$/, '')` step: if the text ends with a
closing fence, remove it along with the whitespace before it. -/
def stripTrailingFence (l : List Char) : List Char :=
  if listEnds "```".toList l then dropTrailWs (dropLastN l 3) else l

/-- The fence-stripping branch: a leading json-tagged fence or a generic
fence is removed together with the whitespace after it, then the
trailing fence (if any) is removed. -/
def stripFences (l : List Char) : List Char :=
  if listStarts "```json".toList l then stripTrailingFence (dropLeadWs (l.drop 7))
  else if listStarts "```".toList l then stripTrailingFence (dropLeadWs (l.drop 3))
  else l

/-- The full cleaning pass of `enhanceTasks`: trim, strip fences, trim. -/
def cleanEnhancedResponse (raw : String) : String :=
  String.mk (trimChars (stripFences (trimChars raw.toList)))

/-- A JSON value as produced by `JSON.parse`, extended with `undefv` so
that JS property access on a missing key can be expressed. -/
inductive Jsonv where
  | undefv
  | null
  | bool (b : Bool)
  | num (n : Int)
  | str (s : String)
  | arr (xs : List Jsonv)
  | obj (fields : List (String × Jsonv))

/-- JS property access `j[k]`: `undefined` on non-objects and missing
keys. -/
def getField : Jsonv → String → Jsonv
  | .obj fs, k =>
    match fs.find? (fun p => p.1 == k) with
    | some p => p.2
    | none => .undefv
  | _, _ => .undefv

/-- JS truthiness. -/
def jsTruthy : Jsonv → Bool
  | .undefv => false
  | .null => false
  | .bool b => b
  | .num n => decide (n ≠ 0)
  | .str s => decide (s ≠ "")
  | .arr _ => true
  | .obj _ => true

/-- JS `Array.isArray`. -/
def isJsArray : Jsonv → Bool
  | .arr _ => true
  | _ => false

/-- The manual structure check of the Trello `enhanceTasks` step
(line 258): `boardName` truthy, `lists` truthy and an array. -/
def trelloEnhancedCheck (j : Jsonv) : Bool :=
  jsTruthy (getField j "boardName") && jsTruthy (getField j "lists")
    && isJsArray (getField j "lists")

/-- The manual structure check of the Jira `enhanceTasks` step
(line 867): `epicTitle` truthy, `stories` truthy and an array. -/
def jiraEnhancedCheck (j : Jsonv) : Bool :=
  jsTruthy (getField j "epicTitle") && jsTruthy (getField j "stories")
    && isJsArray (getField j "stories")

/-- `raw.substring(0, 200)`. -/
def take200 (raw : String) : String :=
  String.mk (raw.toList.take 200)

/-- The error text thrown on any parse or structure failure (lines 262
and 871): it embeds the first 200 characters of the raw (uncleaned)
generator output. -/
def parseFailMsg (raw errDesc : String) : String :=
  "Failed to parse AI response as JSON: " ++ errDesc
    ++ ". Response was: " ++ take200 raw ++ "..."

/-- The whole parse block of `enhanceTasks`: clean, decode, check.
`decode` is the platform `JSON.parse` (an oracle); `check` is the
backend-specific required-fields check. -/
def enhanceTasksParse (decode : String → Option Jsonv) (check : Jsonv → Bool)
    (raw : String) : Except String Jsonv :=
  match decode (cleanEnhancedResponse raw) with
  | none => .error (parseFailMsg raw "SyntaxError")
  | some j =>
    if check j then .ok j
    else .error (parseFailMsg raw "Error: Invalid enhanced tasks structure")

/-! ### Input-schema length bounds (C5)
The zod input schemas bound title/description lengths by rejection:
`jira-tool` lines 40-41 (`max(255)`, `max(32767)`), `trello-tool` lines
90-91 (`max(16384)` for both).  `z.string().max(n)` fails validation on
an oversized value; it never truncates. -/

/-- Length validation of a Jira task title/description pair; on success
the values pass through unchanged. -/
def jiraTaskSchemaLen (title desc : String) : Option (String × String) :=
  if decide (1 ≤ title.length) && decide (title.length ≤ 255)
      && decide (desc.length ≤ 32767) then
    some (title, desc)
  else none

/-- Length validation of a Trello card title/description pair. -/
def trelloCardSchemaLen (title desc : String) : Option (String × String) :=
  if decide (1 ≤ title.length) && decide (title.length ≤ 16384)
      && decide (desc.length ≤ 16384) then
    some (title, desc)
  else none

/-- A string of `n` copies of the letter a, for concrete length tests. -/
def strA (n : Nat) : String :=
  String.mk (List.replicate n 'a')

/-! ### Enhanced-task schema and due-date mapping (C7)
`enhancedTaskSchema` in trello-workflow.ts (lines 69-82) types
`dueInDays` as `z.number()` with no range constraint; `createTrelloBoard`
(lines 350-351) resolves the offset against `new Date()` at write time. -/

/-- zod `z.string()` applied to a JSON value. -/
def isStrV : Jsonv → Bool
  | .str _ => true
  | _ => false

/-- zod `z.number()` applied to a JSON value. -/
def isNumV : Jsonv → Bool
  | .num _ => true
  | _ => false

/-- zod `z.array(p)` applied to a JSON value. -/
def isArrOf (p : Jsonv → Bool) : Jsonv → Bool
  | .arr xs => xs.all p
  | _ => false

/-- The card object of `enhancedTaskSchema` (lines 73-80): title,
description, labels, dueInDays, priority, checklist — `dueInDays` is any
number. -/
def zodEnhancedCard (j : Jsonv) : Bool :=
  isStrV (getField j "title") && isStrV (getField j "description")
    && isArrOf isStrV (getField j "labels") && isNumV (getField j "dueInDays")
    && isStrV (getField j "priority") && isArrOf isStrV (getField j "checklist")

/-- The list object of `enhancedTaskSchema` (lines 71-81). -/
def zodEnhancedList (j : Jsonv) : Bool :=
  isStrV (getField j "name") && isArrOf zodEnhancedCard (getField j "cards")

/-- `enhancedTaskSchema` itself (lines 69-82). -/
def zodEnhancedTrello (j : Jsonv) : Bool :=
  isStrV (getField j "boardName") && isArrOf zodEnhancedList (getField j "lists")

/-- A syntactically well-formed plan whose single card carries the given
due offset. -/
def samplePlanCard (n : Int) : Jsonv :=
  .obj [("title", .str "T"), ("description", .str "D"), ("labels", .arr []),
    ("dueInDays", .num n), ("priority", .str "High"), ("checklist", .arr [])]

/-- A syntactically well-formed plan wrapping `samplePlanCard`. -/
def samplePlan (n : Int) : Jsonv :=
  .obj [("boardName", .str "B"),
    ("lists", .arr [.obj [("name", .str "L"), ("cards", .arr [samplePlanCard n])]])]

/-- Due-date mapping of `createTrelloBoard` (trello-workflow.ts lines
350-351), at day granularity: the attached due date is the wall-clock
day at board-creation time plus the card offset. -/
def cardDueAbs (nowDays off : Int) : Int :=
  nowDays + off

/-! ### Trello write pipeline
Embeds `writeTrelloBoard` of trello-tool.ts (lines 378-616).  Each
remote call is fed from a `TrelloEnv` oracle; creation oracles are keyed
by the name/title the source sends.  Request payload details (due date,
label ids, member assignment) are not modeled: no claim depends on them.
The run returns the tool result, the trace of successful remote
mutations in order, and the `console.warn` log. -/

/-- A workspace object as returned by `/members/me/organizations`. -/
structure TWorkspace where
  id : String
  displayName : String
  name : String
deriving DecidableEq

/-- A board object as returned by `/organizations/:id/boards`. -/
structure TBoardObj where
  id : String
  name : String
  url : String
deriving DecidableEq

/-- A list object as returned by `/boards/:id/lists`. -/
structure TListObj where
  id : String
  name : String
deriving DecidableEq

/-- A created label object. -/
structure TLabelObj where
  id : String
deriving DecidableEq

/-- A created card object. -/
structure TCardObj where
  id : String
deriving DecidableEq

/-- A created checklist object. -/
structure TChecklistObj where
  id : String
deriving DecidableEq

/-- The `/members/me` object. -/
structure TMemberObj where
  id : String
deriving DecidableEq

/-- One card of the `boardData` write input. -/
structure TCardData where
  title : String
  description : String
  labels : List String
  dueDate : Option String
  checklist : List String
deriving DecidableEq

/-- One list of the `boardData` write input. -/
structure TListData where
  name : String
  cards : List TCardData
deriving DecidableEq

/-- One label of the `boardData` write input. -/
structure TLabelData where
  name : String
  color : String
deriving DecidableEq

/-- The `boardData` write input. -/
structure TBoardData where
  lists : List TListData
  labels : List TLabelData
deriving DecidableEq

/-- The `options` input: `maxRetries || 3`,
`archiveExistingLists ?? true`, `createWorkspaceIfNotExists ?? false`. -/
structure TWriteOptions where
  maxRetries : Option Nat
  archiveExistingLists : Option Bool
  createWorkspaceIfNotExists : Option Bool
deriving DecidableEq

/-- Oracle for the remote calls `writeTrelloBoard` makes. -/
structure TrelloEnv where
  connect : Except String Unit
  getWorkspaces : Except String (List TWorkspace)
  createWorkspace : Except String TWorkspace
  getBoards : String → Except String (List TBoardObj)
  createBoard : Except String TBoardObj
  getExistingLists : Except String (List TListObj)
  archiveList : String → Except String Unit
  createLabel : String → Except String TLabelObj
  getMember : Except String TMemberObj
  createList : String → Except String TListObj
  createCard : String → Except String TCardObj
  createChecklist : String → Except String TChecklistObj
  createCheckItem : String → String → Except String Unit

/-- A successful remote mutation performed by the Trello write run. -/
inductive TAction where
  | createdWorkspace (name : String)
  | createdBoard (name : String)
  | archivedList (id : String)
  | createdLabel (name : String)
  | createdList (name : String)
  | createdCard (title : String)
  | createdChecklist (cardId : String)
  | createdCheckItem (checklistId item : String)
deriving DecidableEq

/-- The tool result of a Trello write run: `writeTrelloBoard` returns
either the success payload with its counters (lines 600-608, with no
warnings field) or the caught-error failure (lines 609-615, whose `data`
renders as the message prefixed by "Failed to create Trello board: "). -/
inductive TrelloWriteResult where
  | success (boardUrl : String) (listsCreated cardsCreated labelsCreated : Nat)
  | failure (errMsg : String)
deriving DecidableEq

/-- Trace/log output of a stage that creates no counters. -/
structure TrelloStepOut where
  trace : List TAction
  log : List String
deriving DecidableEq

/-- Output of the label-creation loop. -/
structure TrelloLabelsOut where
  labelMap : List (String × String)
  labelsCreated : Nat
  trace : List TAction
  log : List String
deriving DecidableEq

/-- Output of the card-creation loop of one list. -/
structure TrelloCardsOut where
  cardsCreated : Nat
  trace : List TAction
  log : List String
deriving DecidableEq

/-- Output of the list-creation loop. -/
structure TrelloListsOut where
  listsCreated : Nat
  cardsCreated : Nat
  trace : List TAction
  log : List String
deriving DecidableEq

/-- Full output of a Trello write run. -/
structure TrelloRun where
  result : TrelloWriteResult
  trace : List TAction
  log : List String
deriving DecidableEq

/-- JS `toLowerCase`, modeled character-wise over the string data. -/
def lowerStr (s : String) : String :=
  String.mk (s.toList.map Char.toLower)

/-- Case-insensitive workspace lookup (lines 395-398): matches
`displayName` or `name`. -/
def findWorkspace (wss : List TWorkspace) (workspaceName : String) : Option TWorkspace :=
  wss.find? (fun w =>
    lowerStr w.displayName == lowerStr workspaceName
      || lowerStr w.name == lowerStr workspaceName)

/-- Case-insensitive board lookup (line 424). -/
def findBoard (bs : List TBoardObj) (boardName : String) : Option TBoardObj :=
  bs.find? (fun b => lowerStr b.name == lowerStr boardName)

/-- The archive loop (lines 448-460): every existing list with a truthy
id gets a close call; failures are only logged. -/
def archiveLoop (env : TrelloEnv) : List TListObj → TrelloStepOut
  | [] => ⟨[], []⟩
  | l :: rest =>
    if l.id == "" then archiveLoop env rest
    else
      match env.archiveList l.id with
      | .ok _ =>
        let o := archiveLoop env rest
        ⟨.archivedList l.id :: o.trace, o.log⟩
      | .error m =>
        let o := archiveLoop env rest
        ⟨o.trace, ("Failed to archive list " ++ l.id ++ ": " ++ m) :: o.log⟩

/-- The label loop (lines 470-492).  `labelMap.set` makes the newest
binding win, modeled by consing onto the accumulator and looking up the
first match. -/
def trelloLabelsLoop (env : TrelloEnv) (acc : List (String × String)) :
    List TLabelData → TrelloLabelsOut
  | [] => ⟨acc, 0, [], []⟩
  | lb :: rest =>
    if lb.name == "" then trelloLabelsLoop env acc rest
    else
      match env.createLabel lb.name with
      | .ok obj =>
        let o := trelloLabelsLoop env ((lb.name, obj.id) :: acc) rest
        ⟨o.labelMap, o.labelsCreated + 1, .createdLabel lb.name :: o.trace, o.log⟩
      | .error m =>
        let o := trelloLabelsLoop env acc rest
        ⟨o.labelMap, o.labelsCreated, o.trace,
          ("Failed to create label \"" ++ lb.name ++ "\": " ++ m) :: o.log⟩

/-- The checklist-item loop (lines 570-585): failures are only logged. -/
def trelloCheckItemsLoop (env : TrelloEnv) (checklistId : String) :
    List String → TrelloStepOut
  | [] => ⟨[], []⟩
  | it :: rest =>
    if it == "" then trelloCheckItemsLoop env checklistId rest
    else
      match env.createCheckItem checklistId it with
      | .ok _ =>
        let o := trelloCheckItemsLoop env checklistId rest
        ⟨.createdCheckItem checklistId it :: o.trace, o.log⟩
      | .error m =>
        let o := trelloCheckItemsLoop env checklistId rest
        ⟨o.trace, ("Failed to create checklist item \"" ++ it ++ "\": " ++ m) :: o.log⟩

/-- The card loop of one list (lines 522-593): a failed card creation is
only logged; a created card gets one checklist (when the input checklist
is nonempty) whose own failure is also only logged. -/
def trelloCardsLoop (env : TrelloEnv) : List TCardData → TrelloCardsOut
  | [] => ⟨0, [], []⟩
  | c :: rest =>
    if c.title == "" then trelloCardsLoop env rest
    else
      match env.createCard c.title with
      | .error m =>
        let o := trelloCardsLoop env rest
        ⟨o.cardsCreated, o.trace,
          ("Failed to create card \"" ++ c.title ++ "\": " ++ m) :: o.log⟩
      | .ok card =>
        let co : TrelloStepOut :=
          if c.checklist.isEmpty then ⟨[], []⟩
          else
            match env.createChecklist card.id with
            | .ok cl =>
              let o2 := trelloCheckItemsLoop env cl.id c.checklist
              ⟨.createdChecklist card.id :: o2.trace, o2.log⟩
            | .error m =>
              ⟨[], ["Failed to create checklist for card \"" ++ c.title ++ "\": " ++ m]⟩
        let o := trelloCardsLoop env rest
        ⟨o.cardsCreated + 1, .createdCard c.title :: (co.trace ++ o.trace),
          co.log ++ o.log⟩

/-- The list loop (lines 504-598): a failed list creation is only
logged and its cards are skipped. -/
def trelloListsLoop (env : TrelloEnv) : List TListData → TrelloListsOut
  | [] => ⟨0, 0, [], []⟩
  | ld :: rest =>
    if ld.name == "" then trelloListsLoop env rest
    else
      match env.createList ld.name with
      | .error m =>
        let o := trelloListsLoop env rest
        ⟨o.listsCreated, o.cardsCreated, o.trace,
          ("Failed to create list \"" ++ ld.name ++ "\": " ++ m) :: o.log⟩
      | .ok _ =>
        let co := trelloCardsLoop env ld.cards
        let o := trelloListsLoop env rest
        ⟨o.listsCreated + 1, co.cardsCreated + o.cardsCreated,
          .createdList ld.name :: (co.trace ++ o.trace), co.log ++ o.log⟩

/-- Stages from the archive step onward (lines 443-608): archive (when
enabled), labels, member lookup (a throwing step), then lists/cards; the
final return is always the success payload. -/
def trelloAfterBoard (env : TrelloEnv) (bd : TBoardData) (opts : TWriteOptions)
    (board : TBoardObj) : TrelloRun :=
  let ao : TrelloStepOut :=
    if opts.archiveExistingLists.getD true then
      match env.getExistingLists with
      | .ok ex => archiveLoop env ex
      | .error m => ⟨[], ["Failed to archive existing lists: " ++ m]⟩
    else ⟨[], []⟩
  let lo := trelloLabelsLoop env [] bd.labels
  match env.getMember with
  | .error m => ⟨.failure m, ao.trace ++ lo.trace, ao.log ++ lo.log⟩
  | .ok mem =>
    if mem.id == "" then
      ⟨.failure "Failed to get current member information",
        ao.trace ++ lo.trace, ao.log ++ lo.log⟩
    else
      let so := trelloListsLoop env bd.lists
      ⟨.success board.url so.listsCreated so.cardsCreated lo.labelsCreated,
        ao.trace ++ lo.trace ++ so.trace, ao.log ++ lo.log ++ so.log⟩

/-- Board resolution (lines 422-441): find the board case-insensitively,
else create it (a creation failure fails the run). -/
def trelloWithWorkspace (env : TrelloEnv) (wsId boardName : String) (bd : TBoardData)
    (opts : TWriteOptions) : TrelloRun :=
  match env.getBoards wsId with
  | .error m => ⟨.failure m, [], []⟩
  | .ok bs =>
    match findBoard bs boardName with
    | some b => trelloAfterBoard env bd opts b
    | none =>
      match env.createBoard with
      | .error m =>
        ⟨.failure ("Failed to create board \"" ++ boardName ++ "\": " ++ m), [], []⟩
      | .ok b =>
        let r := trelloAfterBoard env bd opts b
        ⟨r.result, .createdBoard boardName :: r.trace, r.log⟩

/-- `writeTrelloBoard` (lines 378-616): connectivity test, workspace
resolution (lookup, else optional creation), then the board stages.
Error messages listing the available workspaces are abbreviated. -/
def writeTrelloBoard (env : TrelloEnv) (workspaceName boardName : String)
    (bd : TBoardData) (opts : TWriteOptions) : TrelloRun :=
  match env.connect with
  | .error m => ⟨.failure ("Failed to connect to Trello API: " ++ m), [], []⟩
  | .ok _ =>
    match env.getWorkspaces with
    | .error m => ⟨.failure m, [], []⟩
    | .ok wss =>
      match findWorkspace wss workspaceName with
      | some ws => trelloWithWorkspace env ws.id boardName bd opts
      | none =>
        if opts.createWorkspaceIfNotExists.getD false then
          match env.createWorkspace with
          | .error m =>
            ⟨.failure ("Failed to create workspace \"" ++ workspaceName ++ "\": " ++ m),
              [], []⟩
          | .ok ws =>
            let r := trelloWithWorkspace env ws.id boardName bd opts
            ⟨r.result, .createdWorkspace workspaceName :: r.trace, r.log⟩
        else
          ⟨.failure ("Workspace \"" ++ workspaceName
            ++ "\" not found. Set createWorkspaceIfNotExists option to true to create it."),
            [], []⟩

/-! ### Jira write pipeline
Embeds `writeJiraIssues` of the Jira tool (lines 417-680) and the
pre-write validation of `jiraTool.execute` (lines 94-157).  The helpers
`createIssue`, `createSprint`, `addIssueToSprint` and `createIssueLink`
catch all their own errors and report failure through their return value
(null/false), so they are modeled as total oracles; the dead outer catch
branches around them are therefore not reachable and not modeled. -/

/-- Project info used by the write path (`project.style`,
line 455). -/
structure JProjectInfo where
  style : String
deriving DecidableEq

/-- Outcome of the initial project fetch: a thrown retry-exhaustion
error, or a response with its status, body text and (for 2xx) the
decoded project. -/
inductive ProjFetch where
  | thrown (msg : String)
  | resp (status : Nat) (bodyText : String) (proj : JProjectInfo)

/-- A task`s due date as received by the tool: absent, present but not
parseable as a date, or parseable with its timestamp. -/
inductive DueSpec where
  | absent
  | malformed (raw : String)
  | onDate (raw : String) (t : Int)
deriving DecidableEq

/-- One task of the Jira write input. -/
structure JTask where
  title : String
  description : String
  type : String
  assignee : Option String
  epic : Option String
  sprint : Option String
  due : DueSpec
  blocks : Option String
deriving DecidableEq

/-- Oracle for the remote calls the Jira write run makes.  Creation
oracles are keyed by the summary/name the source sends; `createIssue`
returns the created key or `none` (the helper`s internal catch). -/
structure JiraEnv where
  projectFetch : ProjFetch
  boardFetch : Except String (Option Nat)
  metaFetch : Except String (Option String)
  createIssue : String → Option String
  createSprint : Nat → String → Option Nat
  addToSprint : Nat → String → Bool
  createLink : String → String → Bool

/-- A successful remote mutation performed by the Jira write run. -/
inductive JAction where
  | createdIssue (key : String)
  | createdSprint (name : String)
  | addedToSprint (key : String)
  | createdLink (outKey inKey : String)
deriving DecidableEq

/-- The tool result of a Jira write run (lines 656-672): the success
payload (whose warnings field is `undefined` when no warning was
collected) or a failure with its data and error fields. -/
inductive JiraWriteResult where
  | success (projectKey : String) (createdIssues : List String) (boardUrl : String)
      (warnings : Option (List String))
  | failure (data err : String)
deriving DecidableEq

/-- Full output of a Jira write run. -/
structure JiraRun where
  result : JiraWriteResult
  trace : List JAction
deriving DecidableEq

/-- Output of the epic and non-epic creation loops. -/
structure JLoopOut where
  keyMap : List (String × String)
  created : List String
  failed : List String
  warns : List String
  trace : List JAction
deriving DecidableEq

/-- Output of the sprint-creation loop. -/
structure SprintsOut where
  sprintMap : List (String × Nat)
  warns : List String
  trace : List JAction
deriving DecidableEq

/-- Output of one sub-step that only warns and traces. -/
structure JStepOut where
  warns : List String
  trace : List JAction
deriving DecidableEq

/-- `Map.get` over an insertion-ordered association list where the
newest binding was consed in front. -/
def mapGetS (m : List (String × String)) (k : String) : Option String :=
  (m.find? (fun p => p.1 == k)).map (fun p => p.2)

/-- Same for sprint ids. -/
def mapGetN (m : List (String × Nat)) (k : String) : Option Nat :=
  (m.find? (fun p => p.1 == k)).map (fun p => p.2)

/-- JS `s.includes('-')`. -/
def containsDash (s : String) : Bool :=
  s.toList.contains '-'

/-- JS `s.startsWith(pre)`. -/
def strStarts (pre s : String) : Bool :=
  listStarts pre.toList s.toList

/-- Epic-key resolution for a non-epic task (lines 565-571): the run`s
key map, else the literal value when it looks like an issue key of this
project. -/
def epicKeyFor (projectKey : String) (keyMap : List (String × String)) (e : String) :
    Option String :=
  match mapGetS keyMap e with
  | some k => some k
  | none => if containsDash e && strStarts projectKey e then some e else none

/-- The epic-creation loop (lines 514-538). -/
def epicsLoop (env : JiraEnv) (acc : List (String × String)) : List JTask → JLoopOut
  | [] => ⟨acc, [], [], [], []⟩
  | t :: rest =>
    match env.createIssue t.title with
    | some key =>
      let o := epicsLoop env ((t.title, key) :: acc) rest
      ⟨o.keyMap, key :: o.created, o.failed, o.warns, .createdIssue key :: o.trace⟩
    | none =>
      let o := epicsLoop env acc rest
      ⟨o.keyMap, o.created, t.title :: o.failed,
        ("Failed to create epic: " ++ t.title) :: o.warns, o.trace⟩

/-- The sprint-creation loop (lines 541-558), only entered when a board
was found. -/
def sprintsLoop (env : JiraEnv) (boardId : Nat) (acc : List (String × Nat)) :
    List String → SprintsOut
  | [] => ⟨acc, [], []⟩
  | s :: rest =>
    match env.createSprint boardId s with
    | some sid =>
      let o := sprintsLoop env boardId ((s, sid) :: acc) rest
      ⟨o.sprintMap, o.warns, .createdSprint s :: o.trace⟩
    | none =>
      let o := sprintsLoop env boardId acc rest
      ⟨o.sprintMap, ("Failed to create sprint: " ++ s) :: o.warns, o.trace⟩

/-- First-occurrence deduplication, as `[...new Set(xs)]`. -/
def dedupFirstGo (seen : List String) : List String → List String
  | [] => []
  | s :: rest =>
    if seen.contains s then dedupFirstGo seen rest
    else s :: dedupFirstGo (s :: seen) rest

/-- `[...new Set(xs)]`. -/
def dedupFirst (l : List String) : List String :=
  dedupFirstGo [] l

/-- `uniqueSprints` (line 543): the truthy sprint names of all tasks,
deduplicated in first-seen order. -/
def uniqueSprintNames (tasks : List JTask) : List String :=
  dedupFirst ((tasks.filterMap (fun t => t.sprint)).filter (fun s => s != ""))

/-- The non-epic creation loop (lines 561-619): epic-linkage warning,
creation, then sprint assignment with its own warnings. -/
def issuesLoop (env : JiraEnv) (projectKey : String) (sprintMap : List (String × Nat))
    (keyMap : List (String × String)) : List JTask → JLoopOut
  | [] => ⟨keyMap, [], [], [], []⟩
  | t :: rest =>
    let epicWarns : List String :=
      match t.epic with
      | some e =>
        if e == "" then []
        else if (epicKeyFor projectKey keyMap e).isSome then []
        else ["Epic \"" ++ e ++ "\" not found for task \"" ++ t.title
          ++ "\". Skipping epic linkage."]
      | none => []
    match env.createIssue t.title with
    | some key =>
      let sprintStep : JStepOut :=
        match t.sprint with
        | some s =>
          if s == "" then ⟨[], []⟩
          else
            match mapGetN sprintMap s with
            | some sid =>
              if env.addToSprint sid key then ⟨[], [.addedToSprint key]⟩
              else ⟨["Failed to add " ++ key ++ " to sprint " ++ s], []⟩
            | none => ⟨["Sprint \"" ++ s ++ "\" not found for task \"" ++ t.title ++ "\""], []⟩
        | none => ⟨[], []⟩
      let o := issuesLoop env projectKey sprintMap ((t.title, key) :: keyMap) rest
      ⟨o.keyMap, key :: o.created, o.failed, epicWarns ++ sprintStep.warns ++ o.warns,
        .createdIssue key :: (sprintStep.trace ++ o.trace)⟩
    | none =>
      let o := issuesLoop env projectKey sprintMap keyMap rest
      ⟨o.keyMap, o.created, t.title :: o.failed,
        epicWarns ++ (("Failed to create " ++ t.type ++ ": " ++ t.title) :: o.warns),
        o.trace⟩

/-- One iteration of the blocking-link loop (lines 624-652): resolve the
outward key from the run`s key map and the inward key from the map or a
literal project-prefixed issue key, then create the link or warn. -/
def linksStep (env : JiraEnv) (projectKey : String) (keyMap : List (String × String))
    (t : JTask) : JStepOut :=
  let b := t.blocks.getD ""
  let outK := mapGetS keyMap t.title
  let inK : Option String :=
    match mapGetS keyMap b with
    | some k => some k
    | none => if containsDash b && strStarts projectKey b then some b else none
  match outK, inK with
  | some ok1, some ik =>
    if env.createLink ok1 ik then ⟨[], [.createdLink ok1 ik]⟩
    else ⟨["Failed to create blocking link: " ++ t.title ++ " blocks " ++ b], []⟩
  | _, _ =>
    ⟨(if outK.isNone then
        ["Could not find issue key for task title: \"" ++ t.title ++ "\""]
      else [])
      ++ (if inK.isNone then
        ["Could not find issue key for blocked task title: \"" ++ b ++ "\""]
      else []), []⟩

/-- The blocking-link loop (lines 622-653), over the tasks with a truthy
`blocks` value. -/
def linksLoop (env : JiraEnv) (projectKey : String) (keyMap : List (String × String)) :
    List JTask → JStepOut
  | [] => ⟨[], []⟩
  | t :: rest =>
    let s := linksStep env projectKey keyMap t
    let o := linksLoop env projectKey keyMap rest
    ⟨s.warns ++ o.warns, s.trace ++ o.trace⟩

/-- Board resolution (lines 458-474): the decoded board id, or none on a
non-ok response, an absent board, or a thrown fetch. -/
def jiraBoardOpt (env : JiraEnv) : Option Nat :=
  match env.boardFetch with
  | .error _ => none
  | .ok o => o

/-- The warnings produced by board resolution: the catch warning on a
thrown fetch, then the no-board warning whenever no board resulted. -/
def jiraBoardWarns (env : JiraEnv) (projectKey : String) : List String :=
  (match env.boardFetch with
   | .error m => ["Could not fetch boards: " ++ m]
   | .ok _ => [])
  ++ (match jiraBoardOpt env with
      | none => ["No board found for project " ++ projectKey
          ++ ". Sprint operations will be skipped."]
      | some _ => [])

/-- The warnings of the Epic Link metadata fetch (lines 477-503), only
attempted for company-managed projects.  The field id itself feeds only
the abstracted issue payload. -/
def jiraMetaWarns (env : JiraEnv) (isTeamManaged : Bool) : List String :=
  if isTeamManaged then []
  else
    match env.metaFetch with
    | .error m => ["Could not fetch field metadata: " ++ m]
    | .ok _ => []

/-- Stage 1 of the write loops (lines 510-538): the epics, created
first. -/
def jiraEpicsOut (env : JiraEnv) (tasks : List JTask) : JLoopOut :=
  epicsLoop env [] (tasks.filter (fun t => t.type == "Epic"))

/-- Stage 2 (lines 540-558): the sprints, when a board was found. -/
def jiraSprintsOut (env : JiraEnv) (tasks : List JTask) : SprintsOut :=
  match jiraBoardOpt env with
  | some bid => sprintsLoop env bid [] (uniqueSprintNames tasks)
  | none => ⟨[], [], []⟩

/-- Stage 3 (lines 560-619): the non-epic issues, seeing the key map of
the epics stage and the sprint map of the sprints stage. -/
def jiraIssuesOut (env : JiraEnv) (projectKey : String) (tasks : List JTask) : JLoopOut :=
  issuesLoop env projectKey (jiraSprintsOut env tasks).sprintMap
    (jiraEpicsOut env tasks).keyMap (tasks.filter (fun t => t.type != "Epic"))

/-- Stage 4 (lines 621-653): the blocking links, seeing the final key
map. -/
def jiraLinksOut (env : JiraEnv) (projectKey : String) (tasks : List JTask) : JStepOut :=
  linksLoop env projectKey (jiraIssuesOut env projectKey tasks).keyMap
    (tasks.filter (fun t => t.blocks.getD "" != ""))

/-- `createdIssues` after all loops: epic keys then non-epic keys. -/
def jiraCreatedIssues (env : JiraEnv) (projectKey : String) (tasks : List JTask) :
    List String :=
  (jiraEpicsOut env tasks).created ++ (jiraIssuesOut env projectKey tasks).created

/-- `failedIssues` after all loops. -/
def jiraFailedIssues (env : JiraEnv) (projectKey : String) (tasks : List JTask) :
    List String :=
  (jiraEpicsOut env tasks).failed ++ (jiraIssuesOut env projectKey tasks).failed

/-- The collected warnings, in chronological order. -/
def jiraAllWarns (env : JiraEnv) (projectKey : String) (tasks : List JTask)
    (isTeamManaged : Bool) : List String :=
  jiraBoardWarns env projectKey ++ jiraMetaWarns env isTeamManaged
    ++ (jiraEpicsOut env tasks).warns ++ (jiraSprintsOut env tasks).warns
    ++ (jiraIssuesOut env projectKey tasks).warns
    ++ (jiraLinksOut env projectKey tasks).warns

/-- The remote mutations of the run, in chronological order. -/
def jiraTrace (env : JiraEnv) (projectKey : String) (tasks : List JTask) : List JAction :=
  (jiraEpicsOut env tasks).trace ++ (jiraSprintsOut env tasks).trace
    ++ (jiraIssuesOut env projectKey tasks).trace
    ++ (jiraLinksOut env projectKey tasks).trace

/-- The write stages after a successful project fetch (lines 455-672):
board and metadata probes, epics, sprints, other issues, links, then the
final result that fails exactly when no issue was created (lines
656-672). -/
def jiraWriteCore (env : JiraEnv) (baseUrl projectKey : String) (tasks : List JTask)
    (isTeamManaged : Bool) : JiraRun :=
  if (jiraCreatedIssues env projectKey tasks).isEmpty then
    ⟨.failure ("No issues were created successfully. Failed issues: "
        ++ String.intercalate ", " (jiraFailedIssues env projectKey tasks))
      "No issues created", jiraTrace env projectKey tasks⟩
  else
    ⟨.success projectKey (jiraCreatedIssues env projectKey tasks)
        (baseUrl ++ "/jira/software/projects/" ++ projectKey ++ "/boards")
        (if (jiraAllWarns env projectKey tasks isTeamManaged).isEmpty then none
         else some (jiraAllWarns env projectKey tasks isTeamManaged)),
      jiraTrace env projectKey tasks⟩

/-- `writeJiraIssues` (lines 417-680): project fetch dispatch (404, 403,
other non-ok, thrown) then the write stages. -/
def writeJiraIssues (env : JiraEnv) (baseUrl projectKey : String) (tasks : List JTask) :
    JiraRun :=
  match env.projectFetch with
  | .thrown m => ⟨.failure ("Failed to create Jira issues: " ++ m) m, []⟩
  | .resp status bodyText proj =>
    if status = 404 then
      ⟨.failure ("Project \"" ++ projectKey ++ "\" not found or not accessible")
        "Project not found", []⟩
    else if status = 403 then
      ⟨.failure ("Access denied to project \"" ++ projectKey ++ "\". Check your permissions.")
        "Access denied", []⟩
    else if respOk status = false then
      ⟨.failure ("Failed to create Jira issues: Failed to fetch project: "
          ++ toString status ++ " " ++ bodyText)
        ("Failed to fetch project: " ++ toString status ++ " " ++ bodyText), []⟩
    else
      jiraWriteCore env baseUrl projectKey tasks (proj.style == "next-gen")

/-- The per-task warning text of a failed creation: epics and non-epics
use slightly different templates (lines 532 and 613). -/
def jiraFailMsg (t : JTask) : String :=
  if t.type == "Epic" then "Failed to create epic: " ++ t.title
  else "Failed to create " ++ t.type ++ ": " ++ t.title

/-! ### Pre-write validation of the Jira tool (C10)
`validateConfig` (lines 160-182), `isValidProjectKey` (lines 184-187),
`validateTasks` (lines 189-227) and the write gate of `execute` (lines
94-157), which runs entirely before any remote call. -/

/-- `validateConfig`: three independent field checks, in order. -/
structure JiraConfig where
  email : String
  apiToken : String
  baseUrl : String
deriving DecidableEq

/-- Configuration errors, in source order. -/
def validateConfig (c : JiraConfig) : List String :=
  (if c.email == "" then ["JIRA_EMAIL environment variable is required"]
   else if !(c.email.toList.contains '@') then ["JIRA_EMAIL must be a valid email address"]
   else [])
  ++ (if c.apiToken == "" then ["JIRA_API_TOKEN environment variable is required"]
      else if c.apiToken.length < 10 then ["JIRA_API_TOKEN appears to be too short"]
      else [])
  ++ (if c.baseUrl == "" then ["JIRA_BASE_URL environment variable is required"]
      else if !(strStarts "https://" c.baseUrl) then ["JIRA_BASE_URL must start with https://"]
      else [])

/-- `isValidProjectKey`: 1-10 characters, uppercase letters, digits and
underscores. -/
def isValidProjectKey (pk : String) : Bool :=
  decide (1 ≤ pk.length) && decide (pk.length ≤ 10)
    && pk.toList.all (fun c =>
      (decide ('A' ≤ c) && decide (c ≤ 'Z'))
        || (decide ('0' ≤ c) && decide (c ≤ '9')) || c = '_')

/-- Duplicate-title error text (line 199). -/
def dupTitleMsg (idx : Nat) (title : String) : String :=
  "Task " ++ toString (idx + 1) ++ ": Duplicate task title \"" ++ title ++ "\""

/-- Unparseable-due-date error text (line 207). -/
def invalidDueMsg (idx : Nat) (raw : String) : String :=
  "Task " ++ toString (idx + 1) ++ ": Invalid due date format \"" ++ raw ++ "\""

/-- Past-due-date error text (line 209). -/
def pastDueMsg (idx : Nat) (raw : String) : String :=
  "Task " ++ toString (idx + 1) ++ ": Due date \"" ++ raw ++ "\" is in the past"

/-- Unknown-epic-reference error text (line 222). -/
def epicRefMsg (idx : Nat) (e : String) : String :=
  "Task " ++ toString (idx + 1) ++ ": Referenced epic \"" ++ e ++ "\" not found in task list"

/-- First pass of `validateTasks` (lines 194-217): per task, duplicate
title against the titles seen so far, then the due-date checks.  `now`
is the clock value `new Date()` compares against. -/
def vtPass1 (now : Int) : List JTask → Nat → List String → List String
  | [], _, _ => []
  | t :: rest, idx, seen =>
    (if seen.contains t.title then [dupTitleMsg idx t.title] else [])
      ++ (match t.due with
          | .absent => []
          | .malformed r => [invalidDueMsg idx r]
          | .onDate r tm => if tm < now then [pastDueMsg idx r] else [])
      ++ vtPass1 now rest (idx + 1) (t.title :: seen)

/-- The epic titles collected during the first pass (line 215). -/
def vtEpicTitles (tasks : List JTask) : List String :=
  (tasks.filter (fun t => t.type == "Epic")).map (fun t => t.title)

/-- Second pass of `validateTasks` (lines 220-224): unknown epic
references that do not look like issue keys. -/
def vtPass2 (epics : List String) : List JTask → Nat → List String
  | [], _ => []
  | t :: rest, idx =>
    (match t.epic with
     | some e =>
       if e == "" then []
       else if !(epics.contains e) && !(containsDash e) then [epicRefMsg idx e]
       else []
     | none => []) ++ vtPass2 epics rest (idx + 1)

/-- `validateTasks` (lines 189-227). -/
def validateTasks (now : Int) (tasks : List JTask) : List String :=
  vtPass1 now tasks 0 [] ++ vtPass2 (vtEpicTitles tasks) tasks 0

/-- The overall tool result of a Jira `execute` call with
`action: "write"`. -/
inductive JiraToolResult where
  | failure (data err : String)
  | fromWrite (r : JiraWriteResult)
deriving DecidableEq

/-- The write path of `jiraTool.execute` (lines 94-157): configuration
validation, project-key validation, presence of tasks, `validateTasks`,
and only then the remote write.  The returned trace shows the remote
mutations performed. -/
def jiraToolExecuteWrite (env : JiraEnv) (config : JiraConfig) (projectKey : String)
    (projectData : Option (List JTask)) (now : Int) : JiraToolResult × List JAction :=
  let cfgErrors := validateConfig config
  if cfgErrors.isEmpty = false then
    (.failure ("Configuration errors: " ++ String.intercalate ", " cfgErrors)
      "Invalid Jira configuration", [])
  else if isValidProjectKey projectKey = false then
    (.failure "Invalid project key format. Project keys should contain only uppercase letters, numbers, and underscores."
      "Invalid project key format", [])
  else
    match projectData with
    | none =>
      (.failure "Project data with at least one task is required for write operations"
        "Missing project data", [])
    | some tasks =>
      if tasks.isEmpty then
        (.failure "Project data with at least one task is required for write operations"
          "Missing project data", [])
      else
        let verrs := validateTasks now tasks
        if verrs.isEmpty = false then
          (.failure ("Task validation errors: " ++ String.intercalate ", " verrs)
            "Invalid task data", [])
        else
          let r := writeJiraIssues env config.baseUrl projectKey tasks
          (.fromWrite r.result, r.trace)

/-! ### Capability prober and team-managed validation (C8)
`validateTeamManagedProject` (trello-workflow.ts lines 543-655) and the
capability block of `createJiraIssues` (lines 908-954). -/

/-- One issue type of the createmeta payload: its name and the field ids
it exposes. -/
structure MetaIssueType where
  name : String
  fields : List String
deriving DecidableEq

/-- One project of the createmeta payload. -/
structure MetaProject where
  issuetypes : List MetaIssueType
deriving DecidableEq

/-- Outcome of the createmeta call: thrown (includes non-ok responses,
which `jiraRequest` turns into throws) or the decoded project list. -/
inductive MetaOutcome where
  | err (msg : String)
  | ok (projects : List MetaProject)

/-- The capability snapshot of `createJiraIssues` (lines 909-915). -/
structure JiraCapabilities where
  supportsPriority : Bool
  supportsSubtasks : Bool
  supportsStoryPoints : Bool
  priorityFieldId : Option String
  storyPointsFieldId : Option String
deriving DecidableEq

/-- The story-points field ids probed, in order (line 933). -/
def storyPointFieldIds : List String :=
  ["customfield_10016", "customfield_10002", "customfield_10026"]

/-- The capability probe of `createJiraIssues` (lines 917-954): every
failure or absence leaves the corresponding capability at its `false`
default. -/
def probeCapabilities (meta : MetaOutcome) : JiraCapabilities :=
  match meta with
  | .err _ => ⟨false, false, false, none, none⟩
  | .ok projects =>
    match projects.head? with
    | none => ⟨false, false, false, none, none⟩
    | some pm =>
      let story := pm.issuetypes.find? (fun ty => ty.name == "Story")
      let prio : Bool × Option String :=
        match story with
        | some st => if st.fields.contains "priority" then (true, some "priority") else (false, none)
        | none => (false, none)
      let pts : Bool × Option String :=
        match story with
        | some st =>
          match storyPointFieldIds.find? (fun f => st.fields.contains f) with
          | some f => (true, some f)
          | none => (false, none)
        | none => (false, none)
      ⟨prio.1, pm.issuetypes.any (fun ty => ty.name == "Sub-task"), pts.1, prio.2, pts.2⟩

/-- Structured reasons of a failed validation; the source renders each
into a long guidance message. -/
inductive InvalidReason where
  | notAccessible (errDetails : String)
  | companyManaged (style : String)
  | noEpicType
deriving DecidableEq

/-- Outcome of `validateTeamManagedProject`. -/
inductive ValidationOutcome where
  | valid (p : JProjectInfo)
  | invalid (r : InvalidReason)
deriving DecidableEq

/-- `validateTeamManagedProject` (lines 543-655): project fetch, the
next-gen style check, and the Epic issue-type check.  A failing
createmeta call is only logged and validation passes; a successful
createmeta with no Epic issue type fails validation. -/
def validateTeamManagedProject (projFetch : Except String JProjectInfo)
    (meta : MetaOutcome) : ValidationOutcome :=
  match projFetch with
  | .error e => .invalid (.notAccessible e)
  | .ok p =>
    if p.style == "next-gen" then
      match meta with
      | .err _ => .valid p
      | .ok projects =>
        let hasEpicType :=
          match projects.head? with
          | some pm => pm.issuetypes.any (fun ty => ty.name == "Epic")
          | none => false
        if hasEpicType then .valid p else .invalid .noEpicType
    else .invalid (.companyManaged p.style)

/-- The `validateProject` workflow step (lines 680-709): it rethrows an
invalid validation result, aborting the workflow run. -/
def validateProjectStep (projFetch : Except String JProjectInfo) (meta : MetaOutcome) :
    Except InvalidReason JProjectInfo :=
  match validateTeamManagedProject projFetch meta with
  | .valid p => .ok p
  | .invalid r => .error r

/-! ### Concrete environments for witnesses and counterexamples -/

/-- A Trello environment where the workspace and board exist but the
single list creation fails remotely. -/
def ceTrelloEnvListFail : TrelloEnv where
  connect := .ok ()
  getWorkspaces := .ok [⟨"W1", "Acme", "acme"⟩]
  createWorkspace := .error "unused"
  getBoards := fun _ => .ok [⟨"B1", "Plan", "https://trello.com/b/plan"⟩]
  createBoard := .error "unused"
  getExistingLists := .ok []
  archiveList := fun _ => .ok ()
  createLabel := fun _ => .error "unused"
  getMember := .ok ⟨"M1"⟩
  createList := fun _ => .error "boom"
  createCard := fun _ => .error "unused"
  createChecklist := fun _ => .error "unused"
  createCheckItem := fun _ _ => .ok ()

/-- A Trello environment where the list is created but the card creation
fails remotely. -/
def ceTrelloEnvCardFail : TrelloEnv where
  connect := .ok ()
  getWorkspaces := .ok [⟨"W1", "Acme", "acme"⟩]
  createWorkspace := .error "unused"
  getBoards := fun _ => .ok [⟨"B1", "Plan", "https://trello.com/b/plan"⟩]
  createBoard := .error "unused"
  getExistingLists := .ok []
  archiveList := fun _ => .ok ()
  createLabel := fun _ => .error "unused"
  getMember := .ok ⟨"M1"⟩
  createList := fun _ => .ok ⟨"L1", "Todo"⟩
  createCard := fun _ => .error "boom"
  createChecklist := fun _ => .error "unused"
  createCheckItem := fun _ _ => .ok ()

/-- A Trello environment with one pre-existing list on the existing
board, used for the archive-ordering witness. -/
def ceTrelloEnvArchive : TrelloEnv where
  connect := .ok ()
  getWorkspaces := .ok [⟨"W1", "Acme", "acme"⟩]
  createWorkspace := .error "unused"
  getBoards := fun _ => .ok [⟨"B1", "Plan", "https://trello.com/b/plan"⟩]
  createBoard := .error "unused"
  getExistingLists := .ok [⟨"X1", "Old"⟩]
  archiveList := fun _ => .ok ()
  createLabel := fun _ => .error "unused"
  getMember := .ok ⟨"M1"⟩
  createList := fun _ => .ok ⟨"L1", "Todo"⟩
  createCard := fun _ => .ok ⟨"C1"⟩
  createChecklist := fun _ => .ok ⟨"K1"⟩
  createCheckItem := fun _ _ => .ok ()

/-- A Jira environment whose project fetch succeeds, the first issue
creation fails and later ones succeed. -/
def ceJiraEnvPartial : JiraEnv where
  projectFetch := .resp 200 "" ⟨"next-gen"⟩
  boardFetch := .ok none
  metaFetch := .ok none
  createIssue := fun t => if t == "bad" then none else some ("P-" ++ t)
  createSprint := fun _ _ => none
  addToSprint := fun _ _ => false
  createLink := fun _ _ => false

/-- A Jira environment that would fail every remote call: used to show
that pre-validation failures never reach the network. -/
def ceJiraEnvIdle : JiraEnv where
  projectFetch := .thrown "offline"
  boardFetch := .error "offline"
  metaFetch := .error "offline"
  createIssue := fun _ => none
  createSprint := fun _ _ => none
  addToSprint := fun _ _ => false
  createLink := fun _ _ => false

/-- A well-formed Jira tool configuration. -/
def ceJiraConfig : JiraConfig :=
  ⟨"dev@example.com", "token-12345", "https://example.atlassian.net"⟩

/-- A task value with the given title, type and due date. -/
def mkTask (title ty : String) (due : DueSpec) : JTask :=
  ⟨title, "d", ty, none, none, none, due, none⟩

/-- Two tasks sharing one title, for the duplicate-title witness. -/
def ceDupTasks : List JTask :=
  [mkTask "A" "Task" DueSpec.absent, mkTask "A" "Task" DueSpec.absent]

/-- A single-task list created successfully by `ceJiraEnvPartial`. -/
def ceTasksOk : List JTask :=
  [mkTask "T1" "Task" DueSpec.absent]

/-- One failing and one succeeding task under `ceJiraEnvPartial`. -/
def ceTasksMixed : List JTask :=
  [mkTask "bad" "Task" DueSpec.absent, mkTask "good" "Task" DueSpec.absent]

/-- A one-list, one-card board payload. -/
def ceBoardData : TBoardData :=
  ⟨[⟨"Todo", [⟨"C", "", [], none, []⟩]⟩], []⟩

/-- Options with every field left unset (all defaults apply). -/
def ceOpts : TWriteOptions :=
  ⟨none, none, none⟩

theorem makeApiCallGo_all429 (hdr : Nat → Option Nat) (bd : Nat → String) :
    ∀ fuel i, makeApiCallGo (fun n => .resp 429 (hdr n) (bd n)) i fuel
      = (.undefv, trelloBackoffs i fuel) := by
  intro fuel
  induction fuel with
  | zero => intro i; rfl
  | succ f ih =>
    intro i
    simp [makeApiCallGo, trelloBackoffs, ih]

theorem makeJiraRequestGo_all429 (hdr : Nat → Option Nat) (bd : Nat → String) :
    ∀ fuel a le, makeJiraRequestGo (fun n => .resp 429 (hdr n) (bd n)) a le fuel
      = (.thrown (le.getD "Request failed after retries"), jira429Sleeps hdr a fuel) := by
  intro fuel
  induction fuel with
  | zero => intro a le; rfl
  | succ f ih =>
    intro a le
    simp [makeJiraRequestGo, jira429Sleeps, ih]

/-- C1 (amended): on HTTP 429 the Jira client sleeps the Retry-After
duration when the header is present and otherwise `2^attempt` seconds
(attempt counted from 1), then retries; when the budget is exhausted by
consecutive 429 responses it throws the generic "Request failed after
retries" error, which does not carry the response body.  The Trello
client always sleeps `2^i` seconds (i counted from 0), ignoring
Retry-After, and when its budget is exhausted it returns `undefined`
rather than an error.  Both clients do retry after a 429 and succeed
when a later attempt succeeds. -/
theorem rateLimit429_clients (hdr : Nat → Option Nat) (bd : Nat → String) (n : Nat) :
    makeJiraRequest (fun a => .resp 429 (hdr a) (bd a)) n
      = (.thrown "Request failed after retries", jira429Sleeps hdr 1 n)
    ∧ makeApiCall (fun a => .resp 429 (hdr a) (bd a)) n
      = (.undefv, trelloBackoffs 0 n)
    ∧ makeJiraRequest
        (fun a => if a = 1 then .resp 429 (some 2) (bd 1) else .resp 200 none (bd 2)) 3
      = (.ok ⟨200, none, bd 2⟩, [2000])
    ∧ makeApiCall
        (fun a => if a = 0 then .resp 429 none (bd 0) else .resp 200 none (bd 1)) 3
      = (.ok (bd 1), [1000]) := by
  refine ⟨?_, ?_, rfl, rfl⟩
  · exact makeJiraRequestGo_all429 hdr bd n 1 none
  · exact makeApiCallGo_all429 hdr bd n 0

/-- C1 counterexample: with every response being 429 and carrying
`Retry-After: 7`, the Trello client sleeps the exponential backoffs
1s/2s/4s — never the 7 seconds of the header — and then returns
`undefined` instead of failing with a rate-limit error carrying the last
response body. -/
theorem rateLimit429_claim_ce :
    makeApiCall (fun _ => .resp 429 (some 7) "limit-body") 3
      = (TrelloResult.undefv, [1000, 2000, 4000])
    ∧ 7000 ∉ [1000, 2000, 4000] := by
  exact ⟨rfl, by decide⟩

/-- C2 (code bug): the Trello client retries a non-2xx, non-429 response
instead of failing immediately — here a 404 on the first attempt is
slept on (1s) and the second attempt`s 200 is returned as success.  The
Jira client, in contrast, returns the 404 response at once with no
sleeps. -/
theorem remoteRejected_retried_bug :
    makeApiCall
        (fun a => if a = 0 then .resp 404 none "not found" else .resp 200 none "ok-body") 3
      = (.ok "ok-body", [1000])
    ∧ makeJiraRequest
        (fun a => if a = 1 then .resp 404 none "not found" else .resp 200 none "ok-body") 3
      = (.ok ⟨404, none, "not found"⟩, []) :=
  ⟨rfl, rfl⟩

/-- C5 (amended): the input schemas enforce the backend length limits by
rejection, not truncation — validation fails exactly when the bounds are
exceeded, and an accepted title/description passes through unchanged. -/
theorem length_limits_reject (title desc : String) :
    (∀ r, jiraTaskSchemaLen title desc = some r → r = (title, desc))
    ∧ (jiraTaskSchemaLen title desc = none
        ↔ ¬(1 ≤ title.length ∧ title.length ≤ 255 ∧ desc.length ≤ 32767))
    ∧ (∀ r, trelloCardSchemaLen title desc = some r → r = (title, desc))
    ∧ (trelloCardSchemaLen title desc = none
        ↔ ¬(1 ≤ title.length ∧ title.length ≤ 16384 ∧ desc.length ≤ 16384)) := by
  refine ⟨?_, ?_, ?_, ?_⟩
  · intro r h
    unfold jiraTaskSchemaLen at h
    split at h
    · exact (Option.some.inj h).symm
    · exact absurd h (by simp)
  · unfold jiraTaskSchemaLen
    split
    · rename_i hcond
      simp only [Bool.and_eq_true, decide_eq_true_eq] at hcond
      simp only [reduceCtorEq, false_iff, not_not]
      exact ⟨hcond.1.1, hcond.1.2, hcond.2⟩
    · rename_i hcond
      simp only [Bool.and_eq_true, decide_eq_true_eq] at hcond
      simp only [true_iff]
      intro hcontra
      exact hcond ⟨⟨hcontra.1, hcontra.2.1⟩, hcontra.2.2⟩
  · intro r h
    unfold trelloCardSchemaLen at h
    split at h
    · exact (Option.some.inj h).symm
    · exact absurd h (by simp)
  · unfold trelloCardSchemaLen
    split
    · rename_i hcond
      simp only [Bool.and_eq_true, decide_eq_true_eq] at hcond
      simp only [reduceCtorEq, false_iff, not_not]
      exact ⟨hcond.1.1, hcond.1.2, hcond.2⟩
    · rename_i hcond
      simp only [Bool.and_eq_true, decide_eq_true_eq] at hcond
      simp only [true_iff]
      intro hcontra
      exact hcond ⟨⟨hcontra.1, hcontra.2.1⟩, hcontra.2.2⟩

theorem strA_length (n : Nat) : (strA n).length = n := by
  show (List.replicate n 'a').length = n
  exact List.length_replicate n 'a'

/-- C5 witness: a 300-character title is rejected by the Jira schema. -/
theorem length_limits_reject_w :
    jiraTaskSchemaLen (strA 300) "" = none :=
  (length_limits_reject (strA 300) "").2.1.mpr (by rw [strA_length]; decide)

/-- C5 counterexample: a 256-character title exceeds the Jira limit of
255 and the whole item is rejected by schema validation — not truncated,
no warning recorded, contradicting the claim that oversized fields are
truncated and the write proceeds. -/
theorem length_limits_truncate_ce :
    jiraTaskSchemaLen (strA 256) "d" = none ∧ (strA 256).length = 256 := by
  refine ⟨?_, strA_length 256⟩
  simp [jiraTaskSchemaLen, strA_length]

/-- C7 (amended): the workflow schema accepts a card with any integer
due offset (no 1-30 bound is enforced; the range exists only as prompt
guidance), and the due date attached at mapping time is the wall-clock
day of the write run plus the offset. -/
theorem due_offset_resolution (n now off : Int) :
    zodEnhancedTrello (samplePlan n) = true ∧ cardDueAbs now off = now + off :=
  ⟨rfl, rfl⟩

/-- C7 counterexample: a plan whose card has a due offset of 1000 days
passes `enhancedTaskSchema`, so the offset is not bounded between 1 and
30. -/
theorem due_offset_bound_ce :
    zodEnhancedTrello (samplePlan 1000) = true ∧ ¬((1 : Int) ≤ 1000 ∧ (1000 : Int) ≤ 30) :=
  ⟨rfl, by decide⟩

/-- C8 (amended): a failed capability probe leaves every capability at
its `false`/absent default and the pipeline proceeds; a failed metadata
call during validation also passes validation for a team-managed
project; detected absences of priority/story-points/subtask support
likewise degrade to `false` — but a successful metadata call that shows
no Epic issue type makes `validateProject` fail, aborting the run. -/
theorem capability_probe_degrades (m e : String) (p : JProjectInfo)
    (h : p.style = "next-gen") :
    probeCapabilities (.err m) = ⟨false, false, false, none, none⟩
    ∧ validateTeamManagedProject (.ok p) (.err e) = .valid p
    ∧ probeCapabilities (.ok [⟨[⟨"Story", []⟩]⟩]) = ⟨false, false, false, none, none⟩
    ∧ validateProjectStep (.ok p) (.ok [⟨[⟨"Story", ["priority"]⟩]⟩])
        = .error .noEpicType := by
  refine ⟨rfl, ?_, rfl, ?_⟩
  · simp [validateTeamManagedProject, h]
  · simp [validateProjectStep, validateTeamManagedProject, h]

/-- C8 witness: the amended statement at a concrete next-gen project. -/
theorem capability_probe_degrades_w :
    probeCapabilities (.err "x") = ⟨false, false, false, none, none⟩
    ∧ validateTeamManagedProject (.ok ⟨"next-gen"⟩) (.err "y") = .valid ⟨"next-gen"⟩ := by
  have h := capability_probe_degrades "x" "y" ⟨"next-gen"⟩ rfl
  exact ⟨h.1, h.2.1⟩

/-- C8 counterexample: a detected capability absence (no Epic issue type
in a successful createmeta response) makes the validation step return an
error, which the workflow rethrows — the run aborts, so capability
absence does not always merely narrow what the pipeline attempts. -/
theorem capability_probe_abort_ce :
    validateProjectStep (.ok ⟨"next-gen"⟩)
        (.ok [⟨[⟨"Story", ["priority"]⟩, ⟨"Task", []⟩]⟩])
      = .error .noEpicType := by
  rfl

theorem vtPass1_dup (now : Int) :
    ∀ (ts : List JTask) (idx : Nat) (seen : List String),
      ((∃ t ∈ ts, t.title ∈ seen) ∨ ¬ (ts.map (fun t => t.title)).Nodup) →
      ∃ k ttl, dupTitleMsg k ttl ∈ vtPass1 now ts idx seen := by
  intro ts
  induction ts with
  | nil =>
    intro idx seen h
    rcases h with ⟨t, ht, _⟩ | h
    · simp at ht
    · simp at h
  | cons t rest ih =>
    intro idx seen h
    by_cases hs : t.title ∈ seen
    · refine ⟨idx, t.title, ?_⟩
      have hc : seen.contains t.title = true := List.elem_iff.mpr hs
      simp [vtPass1, hc]
      exact Or.inl hs
    · have hnext : (∃ t2 ∈ rest, t2.title ∈ t.title :: seen)
          ∨ ¬ (rest.map (fun x => x.title)).Nodup := by
        rcases h with ⟨t2, ht2, hc2⟩ | hnd
        · rcases List.mem_cons.mp ht2 with heq | hr
          · exact absurd (heq ▸ hc2) hs
          · exact Or.inl ⟨t2, hr, List.mem_cons_of_mem _ hc2⟩
        · rw [List.map_cons, List.nodup_cons] at hnd
          push_neg at hnd
          by_cases hmem : t.title ∈ rest.map (fun x => x.title)
          · rcases List.mem_map.mp hmem with ⟨t2, ht2, he⟩
            exact Or.inl ⟨t2, ht2, by rw [he]; exact List.mem_cons_self _ _⟩
          · exact Or.inr (hnd hmem)
      rcases ih (idx + 1) (t.title :: seen) hnext with ⟨k, ttl, hk⟩
      refine ⟨k, ttl, ?_⟩
      simp only [vtPass1]
      exact List.mem_append.mpr (Or.inr hk)

theorem vtPass1_pastDue (now : Int) :
    ∀ (ts : List JTask) (idx : Nat) (seen : List String) (t : JTask) (r : String) (tm : Int),
      t ∈ ts → t.due = DueSpec.onDate r tm → tm < now →
      ∃ k, pastDueMsg k r ∈ vtPass1 now ts idx seen := by
  intro ts
  induction ts with
  | nil => intro idx seen t r tm ht _ _; simp at ht
  | cons t0 rest ih =>
    intro idx seen t r tm ht hdue hlt
    rcases List.mem_cons.mp ht with heq | hr
    · refine ⟨idx, ?_⟩
      simp only [vtPass1]
      refine List.mem_append.mpr (Or.inl (List.mem_append.mpr (Or.inr ?_)))
      rw [← heq, hdue]
      simp [hlt]
    · rcases ih (idx + 1) (t0.title :: seen) t r tm hr hdue hlt with ⟨k, hk⟩
      exact ⟨k, by simp only [vtPass1]; exact List.mem_append.mpr (Or.inr hk)⟩

/-- C10: a Jira write whose task list carries two tasks with the same
title, or any task with a past due date, fails during `validateTasks`
with a "Task validation errors" failure whose error list names the
offending task (by index, title or raw date), and no remote mutation is
performed. -/
theorem prevalidation_blocks_remote (env : JiraEnv) (config : JiraConfig) (pk : String)
    (tasks : List JTask) (now : Int)
    (hc : validateConfig config = [])
    (hk : isValidProjectKey pk = true)
    (hne : tasks ≠ [])
    (hbad : ¬ (tasks.map (fun t => t.title)).Nodup
      ∨ ∃ t ∈ tasks, ∃ r tm, t.due = DueSpec.onDate r tm ∧ tm < now) :
    jiraToolExecuteWrite env config pk (some tasks) now
      = (.failure ("Task validation errors: "
            ++ String.intercalate ", " (validateTasks now tasks)) "Invalid task data", [])
    ∧ ∃ msg, msg ∈ validateTasks now tasks
        ∧ ((∃ k ttl, msg = dupTitleMsg k ttl) ∨ (∃ k r, msg = pastDueMsg k r)) := by
  have hmsg : ∃ msg, msg ∈ validateTasks now tasks
      ∧ ((∃ k ttl, msg = dupTitleMsg k ttl) ∨ (∃ k r, msg = pastDueMsg k r)) := by
    rcases hbad with hnd | ⟨t, ht, r, tm, hdue, hlt⟩
    · rcases vtPass1_dup now tasks 0 [] (Or.inr hnd) with ⟨k, ttl, hk2⟩
      exact ⟨dupTitleMsg k ttl, List.mem_append.mpr (Or.inl hk2), Or.inl ⟨k, ttl, rfl⟩⟩
    · rcases vtPass1_pastDue now tasks 0 [] t r tm ht hdue hlt with ⟨k, hk2⟩
      exact ⟨pastDueMsg k r, List.mem_append.mpr (Or.inl hk2), Or.inr ⟨k, r, rfl⟩⟩
  refine ⟨?_, hmsg⟩
  rcases hmsg with ⟨msg, hmem, _⟩
  have hvnil : validateTasks now tasks ≠ [] := List.ne_nil_of_mem hmem
  have hvne : (validateTasks now tasks).isEmpty = false := by
    cases hv : validateTasks now tasks with
    | nil => exact absurd hv hvnil
    | cons a l => rfl
  have htne : tasks.isEmpty = false := by
    cases ht : tasks with
    | nil => exact absurd ht hne
    | cons a l => rfl
  simp [jiraToolExecuteWrite, hc, hk, htne, hvne]

/-- C10 witness: two tasks titled "A" are rejected before any remote
call; the environment would fail every remote interaction, and indeed
none happens. -/
theorem prevalidation_blocks_remote_w :
    jiraToolExecuteWrite ceJiraEnvIdle ceJiraConfig "PROJ" (some ceDupTasks) 0
      = (.failure ("Task validation errors: "
            ++ String.intercalate ", " (validateTasks 0 ceDupTasks)) "Invalid task data", [])
    ∧ ∃ msg, msg ∈ validateTasks 0 ceDupTasks
        ∧ ((∃ k ttl, msg = dupTitleMsg k ttl) ∨ (∃ k r, msg = pastDueMsg k r)) := by
  exact prevalidation_blocks_remote ceJiraEnvIdle ceJiraConfig "PROJ" ceDupTasks 0
    (by decide) (by decide) (by decide) (Or.inl (by decide))

theorem epicsLoop_trace (env : JiraEnv) :
    ∀ (ts : List JTask) (acc : List (String × String)),
      (epicsLoop env acc ts).trace = (epicsLoop env acc ts).created.map JAction.createdIssue := by
  intro ts
  induction ts with
  | nil => intro acc; rfl
  | cons t rest ih =>
    intro acc
    cases h : env.createIssue t.title with
    | some key => simp [epicsLoop, h, ih]
    | none => simp [epicsLoop, h, ih]

theorem epicsLoop_failed (env : JiraEnv) :
    ∀ (ts : List JTask) (acc : List (String × String)) (t : JTask),
      t ∈ ts → env.createIssue t.title = none →
      ("Failed to create epic: " ++ t.title) ∈ (epicsLoop env acc ts).warns
      ∧ t.title ∈ (epicsLoop env acc ts).failed := by
  intro ts
  induction ts with
  | nil => intro acc t ht _; simp at ht
  | cons t0 rest ih =>
    intro acc t ht hf
    rcases List.mem_cons.mp ht with heq | hr
    · have hf0 : env.createIssue t0.title = none := heq ▸ hf
      simp [epicsLoop, hf0, heq]
    · cases h0 : env.createIssue t0.title with
      | some key =>
        have hi := ih ((t0.title, key) :: acc) t hr hf
        simp only [epicsLoop, h0]
        exact ⟨hi.1, hi.2⟩
      | none =>
        have hi := ih acc t hr hf
        simp only [epicsLoop, h0]
        exact ⟨List.mem_cons_of_mem _ hi.1, List.mem_cons_of_mem _ hi.2⟩

theorem issuesLoop_created_nil (env : JiraEnv) (pk : String) (sm : List (String × Nat)) :
    ∀ (ts : List JTask) (km : List (String × String)),
      (issuesLoop env pk sm km ts).created = [] → (issuesLoop env pk sm km ts).trace = [] := by
  intro ts
  induction ts with
  | nil => intro km _; rfl
  | cons t rest ih =>
    intro km hc
    cases h : env.createIssue t.title with
    | some key => simp [issuesLoop, h] at hc
    | none =>
      simp only [issuesLoop, h] at hc ⊢
      exact ih km hc

theorem issuesLoop_mem_created (env : JiraEnv) (pk : String) (sm : List (String × Nat)) :
    ∀ (ts : List JTask) (km : List (String × String)) (k : String),
      k ∈ (issuesLoop env pk sm km ts).created →
      JAction.createdIssue k ∈ (issuesLoop env pk sm km ts).trace := by
  intro ts
  induction ts with
  | nil => intro km k hk; simp [issuesLoop] at hk
  | cons t rest ih =>
    intro km k hk
    cases h : env.createIssue t.title with
    | some key =>
      simp only [issuesLoop, h] at hk ⊢
      rcases List.mem_cons.mp hk with heq | hr
      · exact heq ▸ List.mem_cons_self _ _
      · exact List.mem_cons_of_mem _
          (List.mem_append.mpr (Or.inr (ih ((t.title, key) :: km) k hr)))
    | none =>
      simp only [issuesLoop, h] at hk ⊢
      exact ih km k hk

theorem issuesLoop_failed (env : JiraEnv) (pk : String) (sm : List (String × Nat)) :
    ∀ (ts : List JTask) (km : List (String × String)) (t : JTask),
      t ∈ ts → env.createIssue t.title = none →
      ("Failed to create " ++ t.type ++ ": " ++ t.title) ∈ (issuesLoop env pk sm km ts).warns
      ∧ t.title ∈ (issuesLoop env pk sm km ts).failed := by
  intro ts
  induction ts with
  | nil => intro km t ht _; simp at ht
  | cons t0 rest ih =>
    intro km t ht hf
    rcases List.mem_cons.mp ht with heq | hr
    · have hf0 : env.createIssue t0.title = none := heq ▸ hf
      simp only [issuesLoop, hf0]
      constructor
      · refine List.mem_append.mpr (Or.inr ?_)
        rw [heq]
        exact List.mem_cons_self _ _
      · rw [heq]
        exact List.mem_cons_self _ _
    · cases h0 : env.createIssue t0.title with
      | some key =>
        have hi := ih ((t0.title, key) :: km) t hr hf
        simp only [issuesLoop, h0]
        exact ⟨List.mem_append.mpr (Or.inr hi.1), hi.2⟩
      | none =>
        have hi := ih km t hr hf
        simp only [issuesLoop, h0]
        exact ⟨List.mem_append.mpr (Or.inr (List.mem_cons_of_mem _ hi.1)),
          List.mem_cons_of_mem _ hi.2⟩

theorem sprintsLoop_shape (env : JiraEnv) (bid : Nat) :
    ∀ (names : List String) (acc : List (String × Nat)) (a : JAction),
      a ∈ (sprintsLoop env bid acc names).trace → ∃ s, a = JAction.createdSprint s := by
  intro names
  induction names with
  | nil => intro acc a ha; simp [sprintsLoop] at ha
  | cons s rest ih =>
    intro acc a ha
    cases h : env.createSprint bid s with
    | some sid =>
      simp only [sprintsLoop, h] at ha
      rcases List.mem_cons.mp ha with heq | hr
      · exact ⟨s, heq⟩
      · exact ih ((s, sid) :: acc) a hr
    | none =>
      simp only [sprintsLoop, h] at ha
      exact ih acc a ha

theorem linksStep_shape (env : JiraEnv) (pk : String) (km : List (String × String))
    (t : JTask) :
    ∀ a ∈ (linksStep env pk km t).trace, ∃ x y, a = JAction.createdLink x y := by
  intro a ha
  simp only [linksStep] at ha
  cases h1 : mapGetS km t.title with
  | none =>
    rw [h1] at ha
    simp at ha
  | some ok1 =>
    rw [h1] at ha
    cases h2 : mapGetS km (t.blocks.getD "") with
    | some ik =>
      rw [h2] at ha
      cases h3 : env.createLink ok1 ik with
      | false => simp [h3] at ha
      | true =>
        simp [h3] at ha
        exact ⟨ok1, ik, ha⟩
    | none =>
      rw [h2] at ha
      by_cases h3 : (containsDash (t.blocks.getD "") && strStarts pk (t.blocks.getD "")) = true
      · simp only [h3, if_true] at ha
        cases h4 : env.createLink ok1 (t.blocks.getD "") with
        | false => simp [h4] at ha
        | true =>
          simp [h4] at ha
          exact ⟨ok1, t.blocks.getD "", ha⟩
      · simp only [Bool.not_eq_true] at h3
        simp [h3] at ha

theorem linksLoop_shape (env : JiraEnv) (pk : String) (km : List (String × String)) :
    ∀ (ts : List JTask) (a : JAction),
      a ∈ (linksLoop env pk km ts).trace → ∃ x y, a = JAction.createdLink x y := by
  intro ts
  induction ts with
  | nil => intro a ha; simp [linksLoop] at ha
  | cons t rest ih =>
    intro a ha
    simp only [linksLoop] at ha
    rcases List.mem_append.mp ha with h | h
    · exact linksStep_shape env pk km t a h
    · exact ih a h

theorem jiraSprintsOut_shape (env : JiraEnv) (tasks : List JTask) :
    ∀ a ∈ (jiraSprintsOut env tasks).trace, ∃ s, a = JAction.createdSprint s := by
  unfold jiraSprintsOut
  cases jiraBoardOpt env with
  | some bid => exact fun a ha => sprintsLoop_shape env bid _ [] a ha
  | none => intro a ha; simp at ha

theorem jiraWriteCore_trace (env : JiraEnv) (baseUrl pk : String) (tasks : List JTask)
    (itm : Bool) :
    (jiraWriteCore env baseUrl pk tasks itm).trace = jiraTrace env pk tasks := by
  unfold jiraWriteCore
  split <;> rfl

theorem jiraWriteCore_failure_iff (env : JiraEnv) (baseUrl pk : String)
    (tasks : List JTask) (itm : Bool) :
    (∃ d e, (jiraWriteCore env baseUrl pk tasks itm).result = .failure d e)
    ↔ (∀ a ∈ (jiraWriteCore env baseUrl pk tasks itm).trace,
        ∀ k, a ≠ JAction.createdIssue k) := by
  by_cases hemp : (jiraCreatedIssues env pk tasks).isEmpty
  · have hnil : jiraCreatedIssues env pk tasks = [] := List.isEmpty_iff.mp hemp
    have h2 : (jiraEpicsOut env tasks).created = []
        ∧ (jiraIssuesOut env pk tasks).created = [] := by
      unfold jiraCreatedIssues at hnil
      exact List.append_eq_nil.mp hnil
    have het : (jiraEpicsOut env tasks).trace = [] := by
      have hmap : (jiraEpicsOut env tasks).trace
          = (jiraEpicsOut env tasks).created.map JAction.createdIssue :=
        epicsLoop_trace env (tasks.filter (fun t => t.type == "Epic")) []
      rw [hmap, h2.1]
      rfl
    have hut : (jiraIssuesOut env pk tasks).trace = [] :=
      issuesLoop_created_nil env pk (jiraSprintsOut env tasks).sprintMap
        (tasks.filter (fun t => t.type != "Epic")) (jiraEpicsOut env tasks).keyMap h2.2
    constructor
    · intro _ a ha k hak
      rw [jiraWriteCore_trace] at ha
      unfold jiraTrace at ha
      rw [het, hut] at ha
      simp only [List.nil_append, List.append_nil] at ha
      rcases List.mem_append.mp ha with h | h
      · rcases jiraSprintsOut_shape env tasks a h with ⟨s, rfl⟩
        exact JAction.noConfusion hak
      · rcases linksLoop_shape env pk _ _ a h with ⟨x, y, rfl⟩
        exact JAction.noConfusion hak
    · intro _
      refine ⟨"No issues were created successfully. Failed issues: "
        ++ String.intercalate ", " (jiraFailedIssues env pk tasks), "No issues created", ?_⟩
      simp [jiraWriteCore, hemp]
  · constructor
    · intro ⟨d, e, hde⟩
      simp [jiraWriteCore, hemp] at hde
    · intro hR
      exfalso
      have hne : jiraCreatedIssues env pk tasks ≠ [] := by
        intro h
        rw [h] at hemp
        simp at hemp
      rcases List.exists_mem_of_ne_nil _ hne with ⟨k, hk⟩
      have hkt : JAction.createdIssue k ∈ jiraTrace env pk tasks := by
        unfold jiraCreatedIssues at hk
        rcases List.mem_append.mp hk with h | h
        · have hmem : JAction.createdIssue k ∈ (jiraEpicsOut env tasks).trace := by
            have hmap : (jiraEpicsOut env tasks).trace
                = (jiraEpicsOut env tasks).created.map JAction.createdIssue :=
              epicsLoop_trace env (tasks.filter (fun t => t.type == "Epic")) []
            rw [hmap]
            exact List.mem_map_of_mem _ h
          unfold jiraTrace
          exact List.mem_append.mpr (Or.inl (List.mem_append.mpr
            (Or.inl (List.mem_append.mpr (Or.inl hmem)))))
        · have hmem : JAction.createdIssue k ∈ (jiraIssuesOut env pk tasks).trace :=
            issuesLoop_mem_created env pk (jiraSprintsOut env tasks).sprintMap
              (tasks.filter (fun t => t.type != "Epic")) (jiraEpicsOut env tasks).keyMap k h
          unfold jiraTrace
          exact List.mem_append.mpr (Or.inl (List.mem_append.mpr (Or.inr hmem)))
      have htr : JAction.createdIssue k ∈ (jiraWriteCore env baseUrl pk tasks itm).trace := by
        rw [jiraWriteCore_trace]
        exact hkt
      exact hR _ htr k rfl

theorem writeJiraIssues_ok (env : JiraEnv) (baseUrl pk : String) (tasks : List JTask)
    (st : Nat) (bodyText : String) (proj : JProjectInfo)
    (hp : env.projectFetch = .resp st bodyText proj)
    (hok : respOk st = true) :
    writeJiraIssues env baseUrl pk tasks
      = jiraWriteCore env baseUrl pk tasks (proj.style == "next-gen") := by
  have hr : 200 ≤ st ∧ st < 300 := by
    simpa [respOk, Bool.and_eq_true, decide_eq_true_eq] using hok
  have h404 : ¬ st = 404 := by omega
  have h403 : ¬ st = 403 := by omega
  simp [writeJiraIssues, hp, h404, h403, hok]

theorem writeTrelloBoard_found (env : TrelloEnv) (wn bn : String) (bd : TBoardData)
    (opts : TWriteOptions) (wss : List TWorkspace) (ws : TWorkspace) (bs : List TBoardObj)
    (b : TBoardObj)
    (hc : env.connect = .ok ())
    (hw : env.getWorkspaces = .ok wss)
    (hfw : findWorkspace wss wn = some ws)
    (hb : env.getBoards ws.id = .ok bs)
    (hfb : findBoard bs bn = some b) :
    writeTrelloBoard env wn bn bd opts = trelloAfterBoard env bd opts b := by
  simp [writeTrelloBoard, hc, hw, hfw, trelloWithWorkspace, hb, hfb]

/-- C3 (amended): once the Write stage is reached, the Jira run returns
a failure exactly when zero issues were created (a created sprint does
not count, and individual creation failures otherwise only degrade the
run); the Trello run, in contrast, returns a success whenever it gets
past the member lookup, regardless of how many lists, cards or labels
were actually created — including none. -/
theorem writeStage_success_criterion (env : JiraEnv) (baseUrl pk : String)
    (tasks : List JTask) (st : Nat) (bodyText : String) (proj : JProjectInfo)
    (tenv : TrelloEnv) (wn bn : String) (bd : TBoardData) (opts : TWriteOptions)
    (wss : List TWorkspace) (ws : TWorkspace) (bs : List TBoardObj) (b : TBoardObj)
    (mem : TMemberObj)
    (hp : env.projectFetch = .resp st bodyText proj)
    (hok : respOk st = true)
    (hc : tenv.connect = .ok ())
    (hw : tenv.getWorkspaces = .ok wss)
    (hfw : findWorkspace wss wn = some ws)
    (hb : tenv.getBoards ws.id = .ok bs)
    (hfb : findBoard bs bn = some b)
    (hm : tenv.getMember = .ok mem)
    (hmi : mem.id ≠ "") :
    ((∃ d e, (writeJiraIssues env baseUrl pk tasks).result = .failure d e)
      ↔ (∀ a ∈ (writeJiraIssues env baseUrl pk tasks).trace,
          ∀ k, a ≠ JAction.createdIssue k))
    ∧ (∃ nl nc nlb, (writeTrelloBoard tenv wn bn bd opts).result
        = .success b.url nl nc nlb) := by
  constructor
  · rw [writeJiraIssues_ok env baseUrl pk tasks st bodyText proj hp hok]
    exact jiraWriteCore_failure_iff env baseUrl pk tasks (proj.style == "next-gen")
  · rw [writeTrelloBoard_found tenv wn bn bd opts wss ws bs b hc hw hfw hb hfb]
    have hid : (mem.id == "") = false := beq_eq_false_iff_ne.mpr hmi
    refine ⟨(trelloListsLoop tenv bd.lists).listsCreated,
      (trelloListsLoop tenv bd.lists).cardsCreated,
      (trelloLabelsLoop tenv [] bd.labels).labelsCreated, ?_⟩
    simp [trelloAfterBoard, hm, hid]

/-- C3 witness: with a reachable Jira project and a Trello environment
whose card creation fails, the amended criterion holds at concrete
inputs. -/
theorem writeStage_success_criterion_w :
    ((∃ d e, (writeJiraIssues ceJiraEnvPartial "https://example.atlassian.net" "PROJ"
        ceTasksOk).result = .failure d e)
      ↔ (∀ a ∈ (writeJiraIssues ceJiraEnvPartial "https://example.atlassian.net" "PROJ"
          ceTasksOk).trace, ∀ k, a ≠ JAction.createdIssue k))
    ∧ (∃ nl nc nlb, (writeTrelloBoard ceTrelloEnvCardFail "Acme" "Plan" ceBoardData
        ceOpts).result = .success "https://trello.com/b/plan" nl nc nlb) := by
  exact writeStage_success_criterion ceJiraEnvPartial "https://example.atlassian.net" "PROJ"
    ceTasksOk 200 "" ⟨"next-gen"⟩ ceTrelloEnvCardFail "Acme" "Plan" ceBoardData ceOpts
    [⟨"W1", "Acme", "acme"⟩] ⟨"W1", "Acme", "acme"⟩
    [⟨"B1", "Plan", "https://trello.com/b/plan"⟩] ⟨"B1", "Plan", "https://trello.com/b/plan"⟩
    ⟨"M1"⟩ rfl rfl rfl rfl (by decide) rfl (by decide) rfl (by decide)

/-- C3 counterexample: a Trello write run in which the single list
creation fails remotely ends with `success: true` and the counters
`0/0/0` — zero objects created (the mutation trace is empty), yet the
run does not return a failure, contradicting the claim. -/
theorem writeStage_zero_created_success_ce :
    writeTrelloBoard ceTrelloEnvListFail "Acme" "Plan" ceBoardData ceOpts
      = ⟨.success "https://trello.com/b/plan" 0 0 0, [],
          ["Failed to create list \"Todo\": boom"]⟩ := by
  rfl

/-- C4 (amended): in the Jira write path, every individual issue
creation failure is recorded in the result returned to the caller — in
the warnings list when the run succeeds, and in the failed-issues list
named by the failure message when nothing was created.  In the Trello
write path such failures are only written to the console log (see the
counterexample): the returned result carries no warning for them. -/
theorem creation_failures_warned (env : JiraEnv) (baseUrl pk : String)
    (tasks : List JTask) (st : Nat) (bodyText : String) (proj : JProjectInfo) (t : JTask)
    (hp : env.projectFetch = .resp st bodyText proj)
    (hok : respOk st = true)
    (ht : t ∈ tasks)
    (hf : env.createIssue t.title = none) :
    (∀ pk2 ci url w, (writeJiraIssues env baseUrl pk tasks).result = .success pk2 ci url w →
        jiraFailMsg t ∈ w.getD [])
    ∧ (∀ d e, (writeJiraIssues env baseUrl pk tasks).result = .failure d e →
        ∃ fl, d = "No issues were created successfully. Failed issues: "
            ++ String.intercalate ", " fl ∧ t.title ∈ fl) := by
  rw [writeJiraIssues_ok env baseUrl pk tasks st bodyText proj hp hok]
  have hwm : jiraFailMsg t ∈ jiraAllWarns env pk tasks (proj.style == "next-gen")
      ∧ t.title ∈ jiraFailedIssues env pk tasks := by
    by_cases hty : (t.type == "Epic") = true
    · have htf : t ∈ tasks.filter (fun x => x.type == "Epic") :=
        List.mem_filter.mpr ⟨ht, hty⟩
      have he := epicsLoop_failed env (tasks.filter (fun x => x.type == "Epic")) [] t htf hf
      have hmsg : jiraFailMsg t = "Failed to create epic: " ++ t.title := by
        simp [jiraFailMsg, hty]
      constructor
      · rw [hmsg]
        unfold jiraAllWarns
        exact List.mem_append.mpr (Or.inl (List.mem_append.mpr (Or.inl
          (List.mem_append.mpr (Or.inl (List.mem_append.mpr (Or.inr he.1)))))))
      · unfold jiraFailedIssues
        exact List.mem_append.mpr (Or.inl he.2)
    · have hfalse : (t.type == "Epic") = false := by
        cases h : (t.type == "Epic") with
        | true => exact absurd h hty
        | false => rfl
      have hty2 : (t.type != "Epic") = true := by
        simp [bne, hfalse]
      have htf : t ∈ tasks.filter (fun x => x.type != "Epic") :=
        List.mem_filter.mpr ⟨ht, hty2⟩
      have he := issuesLoop_failed env pk (jiraSprintsOut env tasks).sprintMap
        (tasks.filter (fun x => x.type != "Epic")) (jiraEpicsOut env tasks).keyMap t htf hf
      have hmsg : jiraFailMsg t = "Failed to create " ++ t.type ++ ": " ++ t.title := by
        simp [jiraFailMsg, hfalse]
      constructor
      · rw [hmsg]
        unfold jiraAllWarns
        exact List.mem_append.mpr (Or.inl (List.mem_append.mpr (Or.inr he.1)))
      · unfold jiraFailedIssues
        exact List.mem_append.mpr (Or.inr he.2)
  constructor
  · intro pk2 ci url w hw
    by_cases hemp : (jiraCreatedIssues env pk tasks).isEmpty
    · simp [jiraWriteCore, hemp] at hw
    · have hres : (jiraWriteCore env baseUrl pk tasks (proj.style == "next-gen")).result
          = JiraWriteResult.success pk (jiraCreatedIssues env pk tasks)
            (baseUrl ++ "/jira/software/projects/" ++ pk ++ "/boards")
            (if (jiraAllWarns env pk tasks (proj.style == "next-gen")).isEmpty then none
             else some (jiraAllWarns env pk tasks (proj.style == "next-gen"))) := by
        simp [jiraWriteCore, hemp]
      rw [hres] at hw
      injection hw with h1 h2 h3 h4
      have hwne : (jiraAllWarns env pk tasks (proj.style == "next-gen")).isEmpty = false := by
        cases hv : jiraAllWarns env pk tasks (proj.style == "next-gen") with
        | nil => rw [hv] at hwm; exact absurd hwm.1 (List.not_mem_nil _)
        | cons x xs => rfl
      simp only [hwne, Bool.false_eq_true, if_false] at h4
      rw [← h4]
      simpa using hwm.1
  · intro d e hd
    by_cases hemp : (jiraCreatedIssues env pk tasks).isEmpty
    · have hres : (jiraWriteCore env baseUrl pk tasks (proj.style == "next-gen")).result
          = JiraWriteResult.failure ("No issues were created successfully. Failed issues: "
              ++ String.intercalate ", " (jiraFailedIssues env pk tasks))
            "No issues created" := by
        simp [jiraWriteCore, hemp]
      rw [hres] at hd
      injection hd with h1 h2
      exact ⟨jiraFailedIssues env pk tasks, h1.symm, hwm.2⟩
    · simp [jiraWriteCore, hemp] at hd

/-- C4 witness: the failing task "bad" in a mixed run is named in the
warnings of the successful Jira result, and would be named in the
failure data had nothing been created. -/
theorem creation_failures_warned_w :
    (∀ pk2 ci url w, (writeJiraIssues ceJiraEnvPartial "https://example.atlassian.net"
        "PROJ" ceTasksMixed).result = .success pk2 ci url w →
        jiraFailMsg (mkTask "bad" "Task" DueSpec.absent) ∈ w.getD [])
    ∧ (∀ d e, (writeJiraIssues ceJiraEnvPartial "https://example.atlassian.net"
        "PROJ" ceTasksMixed).result = .failure d e →
        ∃ fl, d = "No issues were created successfully. Failed issues: "
            ++ String.intercalate ", " fl
          ∧ (mkTask "bad" "Task" DueSpec.absent).title ∈ fl) := by
  exact creation_failures_warned ceJiraEnvPartial "https://example.atlassian.net" "PROJ"
    ceTasksMixed 200 "" ⟨"next-gen"⟩ (mkTask "bad" "Task" DueSpec.absent)
    rfl rfl (by decide) rfl

/-- C4 counterexample: in the Trello write path a failed card creation
is only written to the console log; the run still returns a success
whose payload carries no warning about it (the Trello result has no
warnings field at all — the only warnings the tool ever returns come
from the duplicate-name checks in `execute`). -/
theorem creation_failures_logged_only_ce :
    writeTrelloBoard ceTrelloEnvCardFail "Acme" "Plan" ceBoardData ceOpts
      = ⟨.success "https://trello.com/b/plan" 1 0 0, [.createdList "Todo"],
          ["Failed to create card \"C\": boom"]⟩ := by
  rfl

theorem trelloLabelsLoop_noArch (env : TrelloEnv) :
    ∀ (lbs : List TLabelData) (acc : List (String × String)) (a : TAction),
      a ∈ (trelloLabelsLoop env acc lbs).trace → ∀ i, a ≠ TAction.archivedList i := by
  intro lbs
  induction lbs with
  | nil => intro acc a ha; simp [trelloLabelsLoop] at ha
  | cons lb rest ih =>
    intro acc a ha i
    by_cases hn : (lb.name == "") = true
    · simp [trelloLabelsLoop, hn] at ha
      exact ih acc a ha i
    · have hnf : (lb.name == "") = false := by
        cases h : (lb.name == "") with
        | true => exact absurd h hn
        | false => rfl
      cases h1 : env.createLabel lb.name with
      | ok obj =>
        simp [trelloLabelsLoop, hnf, h1] at ha
        rcases ha with heq | hr
        · rw [heq]; simp
        · exact ih ((lb.name, obj.id) :: acc) a hr i
      | error m =>
        simp [trelloLabelsLoop, hnf, h1] at ha
        exact ih acc a ha i

theorem trelloCheckItemsLoop_noArch (env : TrelloEnv) (cid : String) :
    ∀ (its : List String) (a : TAction),
      a ∈ (trelloCheckItemsLoop env cid its).trace → ∀ i, a ≠ TAction.archivedList i := by
  intro its
  induction its with
  | nil => intro a ha; simp [trelloCheckItemsLoop] at ha
  | cons it rest ih =>
    intro a ha i
    by_cases hit : (it == "") = true
    · simp [trelloCheckItemsLoop, hit] at ha
      exact ih a ha i
    · have hitf : (it == "") = false := by
        cases h : (it == "") with
        | true => exact absurd h hit
        | false => rfl
      cases h2 : env.createCheckItem cid it with
      | ok u =>
        simp [trelloCheckItemsLoop, hitf, h2] at ha
        rcases ha with heq | hr
        · rw [heq]; simp
        · exact ih a hr i
      | error m =>
        simp [trelloCheckItemsLoop, hitf, h2] at ha
        exact ih a ha i

theorem trelloCardsLoop_noArch (env : TrelloEnv) :
    ∀ (cs : List TCardData) (a : TAction),
      a ∈ (trelloCardsLoop env cs).trace → ∀ i, a ≠ TAction.archivedList i := by
  intro cs
  induction cs with
  | nil => intro a ha; simp [trelloCardsLoop] at ha
  | cons c rest ih =>
    intro a ha i
    by_cases htitle : (c.title == "") = true
    · simp [trelloCardsLoop, htitle] at ha
      exact ih a ha i
    · have htf : (c.title == "") = false := by
        cases h : (c.title == "") with
        | true => exact absurd h htitle
        | false => rfl
      cases h1 : env.createCard c.title with
      | error m =>
        simp [trelloCardsLoop, htf, h1] at ha
        exact ih a ha i
      | ok card =>
        by_cases hck : c.checklist.isEmpty = true
        · simp [trelloCardsLoop, htf, h1, hck] at ha
          rcases ha with heq | hr
          · rw [heq]; simp
          · exact ih a hr i
        · have hckf : c.checklist.isEmpty = false := by
            cases h : c.checklist.isEmpty with
            | true => exact absurd h hck
            | false => rfl
          cases h2 : env.createChecklist card.id with
          | ok cl =>
            simp [trelloCardsLoop, htf, h1, hckf, h2] at ha
            rcases ha with heq | heq2 | h4 | h5
            · rw [heq]; simp
            · rw [heq2]; simp
            · exact trelloCheckItemsLoop_noArch env cl.id c.checklist a h4 i
            · exact ih a h5 i
          | error m =>
            simp [trelloCardsLoop, htf, h1, hckf, h2] at ha
            rcases ha with heq | hr
            · rw [heq]; simp
            · exact ih a hr i

theorem trelloListsLoop_noArch (env : TrelloEnv) :
    ∀ (ls : List TListData) (a : TAction),
      a ∈ (trelloListsLoop env ls).trace → ∀ i, a ≠ TAction.archivedList i := by
  intro ls
  induction ls with
  | nil => intro a ha; simp [trelloListsLoop] at ha
  | cons ld rest ih =>
    intro a ha i
    by_cases hn : (ld.name == "") = true
    · simp [trelloListsLoop, hn] at ha
      exact ih a ha i
    · have hnf : (ld.name == "") = false := by
        cases h : (ld.name == "") with
        | true => exact absurd h hn
        | false => rfl
      cases h1 : env.createList ld.name with
      | error m =>
        simp [trelloListsLoop, hnf, h1] at ha
        exact ih a ha i
      | ok lobj =>
        simp [trelloListsLoop, hnf, h1] at ha
        rcases ha with heq | h3 | h3
        · rw [heq]; simp
        · exact trelloCardsLoop_noArch env ld.cards a h3 i
        · exact ih a h3 i

theorem archiveLoop_all_ok (env : TrelloEnv) :
    ∀ (ex : List TListObj), (∀ l ∈ ex, env.archiveList l.id = .ok ()) →
      archiveLoop env ex
        = ⟨(ex.filter (fun l => l.id != "")).map (fun l => TAction.archivedList l.id), []⟩ := by
  intro ex
  induction ex with
  | nil => intro _; rfl
  | cons l rest ih =>
    intro h
    have hrest := ih (fun x hx => h x (List.mem_cons_of_mem _ hx))
    by_cases hid : (l.id == "") = true
    · have hbne : (l.id != "") = false := by simp [bne, hid]
      simp [archiveLoop, hid, hbne, hrest]
    · have hidf : (l.id == "") = false := by
        cases hh : (l.id == "") with
        | true => exact absurd hh hid
        | false => rfl
      have hbne : (l.id != "") = true := by simp [bne, hidf]
      have hok := h l (List.mem_cons_self _ _)
      simp [archiveLoop, hidf, hbne, hok, hrest]

/-- C9: with `archiveExistingLists` left unset (so defaulting to true),
a Trello write against a board that already exists under its
case-insensitively matched name first archives every pre-existing list
of that board (those with a truthy id, all archive calls succeeding),
and only after that prefix of the mutation trace does anything else —
in particular any list creation — happen. -/
theorem archive_before_create (env : TrelloEnv) (wn bn : String) (bd : TBoardData)
    (opts : TWriteOptions) (wss : List TWorkspace) (ws : TWorkspace)
    (bs : List TBoardObj) (b : TBoardObj) (ex : List TListObj)
    (h1 : opts.archiveExistingLists = none)
    (h2 : env.connect = .ok ())
    (h3 : env.getWorkspaces = .ok wss)
    (h4 : findWorkspace wss wn = some ws)
    (h5 : env.getBoards ws.id = .ok bs)
    (h6 : findBoard bs bn = some b)
    (h7 : env.getExistingLists = .ok ex)
    (h8 : ∀ l ∈ ex, env.archiveList l.id = .ok ()) :
    ∃ rest, (writeTrelloBoard env wn bn bd opts).trace
        = (ex.filter (fun l => l.id != "")).map (fun l => TAction.archivedList l.id) ++ rest
      ∧ ∀ a ∈ rest, ∀ i, a ≠ TAction.archivedList i := by
  rw [writeTrelloBoard_found env wn bn bd opts wss ws bs b h2 h3 h4 h5 h6]
  have harch := archiveLoop_all_ok env ex h8
  have h1' : opts.archiveExistingLists.getD true = true := by rw [h1]; rfl
  cases hm : env.getMember with
  | error m =>
    refine ⟨(trelloLabelsLoop env [] bd.labels).trace, ?_, ?_⟩
    · simp [trelloAfterBoard, h1', h7, harch, hm]
    · intro a ha i
      exact trelloLabelsLoop_noArch env bd.labels [] a ha i
  | ok mem =>
    by_cases hid : (mem.id == "") = true
    · refine ⟨(trelloLabelsLoop env [] bd.labels).trace, ?_, ?_⟩
      · simp [trelloAfterBoard, h1', h7, harch, hm, hid]
      · intro a ha i
        exact trelloLabelsLoop_noArch env bd.labels [] a ha i
    · have hidf : (mem.id == "") = false := by
        cases hh : (mem.id == "") with
        | true => exact absurd hh hid
        | false => rfl
      refine ⟨(trelloLabelsLoop env [] bd.labels).trace
        ++ (trelloListsLoop env bd.lists).trace, ?_, ?_⟩
      · simp [trelloAfterBoard, h1', h7, harch, hm, hidf, List.append_assoc]
      · intro a ha i
        rcases List.mem_append.mp ha with h | h
        · exact trelloLabelsLoop_noArch env bd.labels [] a h i
        · exact trelloListsLoop_noArch env bd.lists a h i

/-- C9 witness: a board with one pre-existing list gets that list
archived ahead of everything else in the mutation trace. -/
theorem archive_before_create_w :
    ∃ rest, (writeTrelloBoard ceTrelloEnvArchive "Acme" "Plan" ceBoardData ceOpts).trace
        = (([⟨"X1", "Old"⟩] : List TListObj).filter (fun l => l.id != "")).map
            (fun l => TAction.archivedList l.id) ++ rest
      ∧ ∀ a ∈ rest, ∀ i, a ≠ TAction.archivedList i := by
  exact archive_before_create ceTrelloEnvArchive "Acme" "Plan" ceBoardData ceOpts
    [⟨"W1", "Acme", "acme"⟩] ⟨"W1", "Acme", "acme"⟩
    [⟨"B1", "Plan", "https://trello.com/b/plan"⟩]
    ⟨"B1", "Plan", "https://trello.com/b/plan"⟩ [⟨"X1", "Old"⟩]
    rfl rfl rfl (by decide) rfl (by decide) rfl
    (by intro l hl; rw [List.mem_singleton] at hl; subst hl; rfl)

theorem dropLeadWs_cons_nws (c : Char) (h : Char.isWhitespace c = false) (t : List Char) :
    dropLeadWs (c :: t) = c :: t := by
  simp [dropLeadWs, List.dropWhile_cons, h]

theorem dropWhile_ws_idem (R : List Char) :
    (R.dropWhile Char.isWhitespace).dropWhile Char.isWhitespace
      = R.dropWhile Char.isWhitespace := by
  induction R with
  | nil => rfl
  | cons c t ih =>
    by_cases hc : Char.isWhitespace c = true
    · simp [List.dropWhile_cons, hc, ih]
    · have hcf : Char.isWhitespace c = false := by
        cases h : Char.isWhitespace c with
        | true => exact absurd h hc
        | false => rfl
      simp [List.dropWhile_cons, hcf]

theorem dropTrailWs_idem (l : List Char) :
    dropTrailWs (dropTrailWs l) = dropTrailWs l := by
  unfold dropTrailWs
  rw [List.reverse_reverse]
  congr 1
  exact dropWhile_ws_idem _

theorem dropLeadWs_head : ∀ (l : List Char) (c : Char) (t : List Char),
    dropLeadWs l = c :: t → Char.isWhitespace c = false := by
  intro l
  induction l with
  | nil => intro c t h; simp [dropLeadWs] at h
  | cons a l2 ih =>
    intro c t h
    by_cases ha : Char.isWhitespace a = true
    · simp only [dropLeadWs, List.dropWhile_cons, ha, if_true] at h
      exact ih c t h
    · have haf : Char.isWhitespace a = false := by
        cases hh : Char.isWhitespace a with
        | true => exact absurd hh ha
        | false => rfl
      simp only [dropLeadWs, List.dropWhile_cons, haf, Bool.false_eq_true, if_false] at h
      rcases List.cons.injEq .. ▸ h with ⟨h1, h2⟩
      rw [← h1]
      exact haf

theorem dropTrailWs_cons (c : Char) (t : List Char) :
    dropTrailWs (c :: t) = [] ∨ ∃ t2, dropTrailWs (c :: t) = c :: t2 := by
  unfold dropTrailWs
  rw [List.reverse_cons]
  generalize t.reverse = R
  induction R with
  | nil =>
    by_cases hc : Char.isWhitespace c = true
    · left
      simp [List.dropWhile, hc]
    · right
      refine ⟨[], ?_⟩
      simp [List.dropWhile, hc]
  | cons r R2 ih =>
    by_cases hr : Char.isWhitespace r = true
    · simpa [List.dropWhile_cons, hr] using ih
    · have hrf : Char.isWhitespace r = false := by
        cases hh : Char.isWhitespace r with
        | true => exact absurd hh hr
        | false => rfl
      right
      refine ⟨R2.reverse ++ [r], ?_⟩
      simp [List.dropWhile_cons, hrf]

theorem trimChars_idem (l : List Char) : trimChars (trimChars l) = trimChars l := by
  show dropTrailWs (dropLeadWs (dropTrailWs (dropLeadWs l))) = dropTrailWs (dropLeadWs l)
  cases hA : dropLeadWs l with
  | nil => rfl
  | cons c t =>
    have hc := dropLeadWs_head l c t hA
    rcases dropTrailWs_cons c t with h0 | ⟨t2, h2⟩
    · rw [h0]; rfl
    · rw [h2, dropLeadWs_cons_nws c hc t2]
      calc dropTrailWs (c :: t2) = dropTrailWs (dropTrailWs (c :: t)) := by rw [h2]
        _ = dropTrailWs (c :: t) := dropTrailWs_idem _
        _ = c :: t2 := h2

theorem dropTrailWs_ticks (xs : List Char) :
    dropTrailWs (xs ++ ['\n', '`', '`', '`']) = xs ++ ['\n', '`', '`', '`'] := by
  unfold dropTrailWs
  rw [List.reverse_append]
  have h1 : (['\n', '`', '`', '`'] : List Char).reverse = ['`', '`', '`', '\n'] := rfl
  rw [h1]
  simp [List.dropWhile_cons]

theorem dropTrailWs_newline (A : List Char) :
    dropTrailWs (A ++ ['\n']) = dropTrailWs A := by
  unfold dropTrailWs
  rw [List.reverse_append]
  simp [List.dropWhile_cons]

theorem dropLastN_q (A : List Char) :
    dropLastN (A ++ ['\n', '`', '`', '`']) 3 = A ++ ['\n'] := by
  unfold dropLastN
  induction A with
  | nil => rfl
  | cons c t ih =>
    simp only [List.cons_append, List.length_cons]
    have hlen : (t ++ ['\n', '`', '`', '`']).length + 1 - 3
        = (t ++ ['\n', '`', '`', '`']).length - 3 + 1 := by
      simp [List.length_append]
    rw [hlen, List.take_succ_cons, ih]

theorem dropLeadWs_append_q (l : List Char) :
    dropLeadWs (l ++ ['\n', '`', '`', '`'])
      = if (dropLeadWs l).isEmpty then ['`', '`', '`']
        else dropLeadWs l ++ ['\n', '`', '`', '`'] := by
  induction l with
  | nil => decide
  | cons c t ih =>
    by_cases hc : Char.isWhitespace c = true
    · have e1 : dropLeadWs ((c :: t) ++ ['\n', '`', '`', '`'])
          = dropLeadWs (t ++ ['\n', '`', '`', '`']) := by
        simp [dropLeadWs, List.dropWhile_cons, hc]
      have e2 : dropLeadWs (c :: t) = dropLeadWs t := by
        simp [dropLeadWs, List.dropWhile_cons, hc]
      rw [e1, ih, e2]
    · have hcf : Char.isWhitespace c = false := by
        cases hh : Char.isWhitespace c with
        | true => exact absurd hh hc
        | false => rfl
      simp [dropLeadWs, List.dropWhile_cons, hcf, List.cons_append]

theorem cleanFence_json_list (l : List Char) :
    trimChars (stripFences (trimChars
        ((['`', '`', '`', 'j', 's', 'o', 'n', '\n'] : List Char)
          ++ (l ++ ['\n', '`', '`', '`']))))
      = trimChars l := by
  have h1 : trimChars ((['`', '`', '`', 'j', 's', 'o', 'n', '\n'] : List Char)
        ++ (l ++ ['\n', '`', '`', '`']))
      = ['`', '`', '`', 'j', 's', 'o', 'n', '\n'] ++ (l ++ ['\n', '`', '`', '`']) := by
    show dropTrailWs (dropLeadWs ('`' :: (['`', '`', 'j', 's', 'o', 'n', '\n']
      ++ (l ++ ['\n', '`', '`', '`'])))) = _
    rw [dropLeadWs_cons_nws '`' (by decide)]
    rw [show ('`' : Char) :: (['`', '`', 'j', 's', 'o', 'n', '\n'] ++ (l ++ ['\n', '`', '`', '`']))
      = (['`', '`', '`', 'j', 's', 'o', 'n', '\n'] ++ l) ++ ['\n', '`', '`', '`'] from by simp]
    rw [dropTrailWs_ticks]
    simp
  rw [h1]
  have h2 : listStarts "```json".toList
      ((['`', '`', '`', 'j', 's', 'o', 'n', '\n'] : List Char)
        ++ (l ++ ['\n', '`', '`', '`'])) = true := rfl
  show trimChars (stripFences _) = _
  rw [stripFences, if_pos h2]
  have h3 : ((['`', '`', '`', 'j', 's', 'o', 'n', '\n'] : List Char)
      ++ (l ++ ['\n', '`', '`', '`'])).drop 7 = '\n' :: (l ++ ['\n', '`', '`', '`']) := rfl
  rw [h3]
  have h4 : dropLeadWs ('\n' :: (l ++ ['\n', '`', '`', '`']))
      = dropLeadWs (l ++ ['\n', '`', '`', '`']) := by
    simp [dropLeadWs, List.dropWhile_cons]
  rw [h4, dropLeadWs_append_q l]
  cases hE : (dropLeadWs l).isEmpty with
  | true =>
    rw [if_pos rfl]
    have hnil : dropLeadWs l = [] := List.isEmpty_iff.mp hE
    have htl : trimChars l = [] := by
      show dropTrailWs (dropLeadWs l) = []
      rw [hnil]
      rfl
    rw [htl]
    rfl
  | false =>
    rw [if_neg (by simp [hE])]
    have h5 : stripTrailingFence (dropLeadWs l ++ ['\n', '`', '`', '`'])
        = dropTrailWs (dropLeadWs l) := by
      have hend : listEnds "```".toList (dropLeadWs l ++ ['\n', '`', '`', '`']) = true := by
        unfold listEnds
        rw [List.reverse_append]
        rfl
      rw [stripTrailingFence, if_pos hend, dropLastN_q, dropTrailWs_newline]
    rw [h5]
    exact trimChars_idem l

theorem cleanFence_generic_list (l : List Char) :
    trimChars (stripFences (trimChars
        ((['`', '`', '`', '\n'] : List Char) ++ (l ++ ['\n', '`', '`', '`']))))
      = trimChars l := by
  have h1 : trimChars ((['`', '`', '`', '\n'] : List Char) ++ (l ++ ['\n', '`', '`', '`']))
      = ['`', '`', '`', '\n'] ++ (l ++ ['\n', '`', '`', '`']) := by
    show dropTrailWs (dropLeadWs ('`' :: (['`', '`', '\n']
      ++ (l ++ ['\n', '`', '`', '`'])))) = _
    rw [dropLeadWs_cons_nws '`' (by decide)]
    rw [show ('`' : Char) :: (['`', '`', '\n'] ++ (l ++ ['\n', '`', '`', '`']))
      = (['`', '`', '`', '\n'] ++ l) ++ ['\n', '`', '`', '`'] from by simp]
    rw [dropTrailWs_ticks]
    simp
  rw [h1]
  have h2 : listStarts "```json".toList
      ((['`', '`', '`', '\n'] : List Char) ++ (l ++ ['\n', '`', '`', '`'])) = false := rfl
  have h2b : listStarts "```".toList
      ((['`', '`', '`', '\n'] : List Char) ++ (l ++ ['\n', '`', '`', '`'])) = true := rfl
  show trimChars (stripFences _) = _
  rw [stripFences, if_neg (by simp only [Bool.not_eq_true]; rfl), if_pos h2b]
  have h3 : ((['`', '`', '`', '\n'] : List Char)
      ++ (l ++ ['\n', '`', '`', '`'])).drop 3 = '\n' :: (l ++ ['\n', '`', '`', '`']) := rfl
  rw [h3]
  have h4 : dropLeadWs ('\n' :: (l ++ ['\n', '`', '`', '`']))
      = dropLeadWs (l ++ ['\n', '`', '`', '`']) := by
    simp [dropLeadWs, List.dropWhile_cons]
  rw [h4, dropLeadWs_append_q l]
  cases hE : (dropLeadWs l).isEmpty with
  | true =>
    rw [if_pos rfl]
    have hnil : dropLeadWs l = [] := List.isEmpty_iff.mp hE
    have htl : trimChars l = [] := by
      show dropTrailWs (dropLeadWs l) = []
      rw [hnil]
      rfl
    rw [htl]
    rfl
  | false =>
    rw [if_neg (by simp [hE])]
    have h5 : stripTrailingFence (dropLeadWs l ++ ['\n', '`', '`', '`'])
        = dropTrailWs (dropLeadWs l) := by
      have hend : listEnds "```".toList (dropLeadWs l ++ ['\n', '`', '`', '`']) = true := by
        unfold listEnds
        rw [List.reverse_append]
        rfl
      rw [stripTrailingFence, if_pos hend, dropLastN_q, dropTrailWs_newline]
    rw [h5]
    exact trimChars_idem l

/-- C6: the parse step of `enhanceTasks` strips a fenced code-block
wrapper when present — both the generic fence and the json-tagged fence
— and trims whitespace (the first two conjuncts: cleaning a fenced
payload yields exactly the trimmed payload); it accepts exactly when the
structural decode of the cleaned text succeeds and the required
top-level fields check passes (third conjunct); and every failure —
decode error or structure error, in either workflow — surfaces an error
message embedding the first 200 characters of the raw generator output
(last two conjuncts). -/
theorem plan_parse_checks (decode : String → Option Jsonv) (raw s : String) :
    cleanEnhancedResponse ("```json\n" ++ s ++ "\n```") = String.mk (trimChars s.toList)
    ∧ cleanEnhancedResponse ("```\n" ++ s ++ "\n```") = String.mk (trimChars s.toList)
    ∧ (∀ j, enhanceTasksParse decode trelloEnhancedCheck raw = .ok j ↔
        (decode (cleanEnhancedResponse raw) = some j ∧ trelloEnhancedCheck j = true))
    ∧ (∀ e, enhanceTasksParse decode trelloEnhancedCheck raw = .error e →
        ∃ pre post, e = pre ++ take200 raw ++ post)
    ∧ (∀ e, enhanceTasksParse decode jiraEnhancedCheck raw = .error e →
        ∃ pre post, e = pre ++ take200 raw ++ post) := by
  refine ⟨?_, ?_, ?_, ?_, ?_⟩
  · show String.mk (trimChars (stripFences (trimChars ("```json\n" ++ s ++ "\n```").toList)))
      = String.mk (trimChars s.toList)
    congr 1
    have h0 : ("```json\n" ++ s ++ "\n```").toList
        = ['`', '`', '`', 'j', 's', 'o', 'n', '\n'] ++ (s.toList ++ ['\n', '`', '`', '`']) := by
      rw [show ("```json\n" ++ s ++ "\n```").toList
        = ("```json\n".toList ++ s.toList) ++ "\n```".toList from rfl, List.append_assoc]
      rfl
    rw [h0]
    exact cleanFence_json_list s.toList
  · show String.mk (trimChars (stripFences (trimChars ("```\n" ++ s ++ "\n```").toList)))
      = String.mk (trimChars s.toList)
    congr 1
    have h0 : ("```\n" ++ s ++ "\n```").toList
        = ['`', '`', '`', '\n'] ++ (s.toList ++ ['\n', '`', '`', '`']) := by
      rw [show ("```\n" ++ s ++ "\n```").toList
        = ("```\n".toList ++ s.toList) ++ "\n```".toList from rfl, List.append_assoc]
      rfl
    rw [h0]
    exact cleanFence_generic_list s.toList
  · intro j
    unfold enhanceTasksParse
    cases hdec : decode (cleanEnhancedResponse raw) with
    | none => simp
    | some j0 =>
      by_cases hc : trelloEnhancedCheck j0 = true
      · simp only [hc, if_true]
        constructor
        · intro h
          injection h with h1
          subst h1
          exact ⟨rfl, hc⟩
        · rintro ⟨h1, _⟩
          injection h1 with h1
          subst h1
          rfl
      · have hcf : trelloEnhancedCheck j0 = false := by
          cases hh : trelloEnhancedCheck j0 with
          | true => exact absurd hh hc
          | false => rfl
        simp only [hcf, Bool.false_eq_true, if_false]
        constructor
        · intro h
          exact absurd h (by simp)
        · rintro ⟨h1, h2⟩
          injection h1 with h1
          subst h1
          exact absurd h2 hc
  · intro e he
    unfold enhanceTasksParse at he
    cases hdec : decode (cleanEnhancedResponse raw) with
    | none =>
      rw [hdec] at he
      simp only [Except.error.injEq] at he
      exact ⟨"Failed to parse AI response as JSON: " ++ "SyntaxError" ++ ". Response was: ",
        "...", by rw [← he]; rfl⟩
    | some j0 =>
      rw [hdec] at he
      by_cases hc : trelloEnhancedCheck j0 = true
      · simp [hc] at he
      · have hcf : trelloEnhancedCheck j0 = false := by
          cases hh : trelloEnhancedCheck j0 with
          | true => exact absurd hh hc
          | false => rfl
        simp only [hcf, Bool.false_eq_true, if_false, Except.error.injEq] at he
        exact ⟨"Failed to parse AI response as JSON: "
            ++ "Error: Invalid enhanced tasks structure" ++ ". Response was: ",
          "...", by rw [← he]; rfl⟩
  · intro e he
    unfold enhanceTasksParse at he
    cases hdec : decode (cleanEnhancedResponse raw) with
    | none =>
      rw [hdec] at he
      simp only [Except.error.injEq] at he
      exact ⟨"Failed to parse AI response as JSON: " ++ "SyntaxError" ++ ". Response was: ",
        "...", by rw [← he]; rfl⟩
    | some j0 =>
      rw [hdec] at he
      by_cases hc : jiraEnhancedCheck j0 = true
      · simp [hc] at he
      · have hcf : jiraEnhancedCheck j0 = false := by
          cases hh : jiraEnhancedCheck j0 with
          | true => exact absurd hh hc
          | false => rfl
        simp only [hcf, Bool.false_eq_true, if_false, Except.error.injEq] at he
        exact ⟨"Failed to parse AI response as JSON: "
            ++ "Error: Invalid enhanced tasks structure" ++ ". Response was: ",
          "...", by rw [← he]; rfl⟩

/-- C6 witness: a decode failure on the raw text "ab" produces an error
embedding its first 200 characters. -/
theorem plan_parse_checks_w :
    ∃ pre post, parseFailMsg "ab" "SyntaxError" = pre ++ take200 "ab" ++ post :=
  (plan_parse_checks (fun _ => none) "ab" "s").2.2.2.1 (parseFailMsg "ab" "SyntaxError") rfl
